import Mathlib

/-!
# Verification of the OAT face-identity matching pipeline

This file gives a shallow embedding of the core of the OAT photo-triage
application and proves (or refutes) the specification's claims about it.

Embedded source files:

* `src/services/ai/face-detector.ts` — the similarity scorer `compareFaces`
  and the oracle wrapper `detectAllFaces`;
* `src/services/processing/processing-pipeline.ts` — the batch pipeline
  (`processAll`, `processPhoto`, `cancel`);
* `src/store/processing.ts` — the zustand progress store and its actions.

Modelling conventions:

* JavaScript numbers are modelled as `Option ℚ`, where `none` stands for
  `NaN` (produced e.g. by reading an array out of bounds and propagated
  through arithmetic).  All JS comparisons involving `NaN` are false, and
  `Math.min` / `Math.max` return `NaN` when an argument is `NaN`; the
  `Option` operations below reproduce exactly that.
* `compareFaces` computes `distance = Math.sqrt(sumSq)`.  The only use the
  program ever makes of `distance` is the strict comparison
  `comparison.distance < bestMatch.distance`; since `Math.sqrt` is strictly
  monotone on nonnegative reals, `sqrt a < sqrt b ↔ a < b` there.  The
  embedding therefore carries the (rational) squared distance `distanceSq`
  and performs the pipeline's comparisons on it, which preserves every
  observable decision of the program (including the `NaN` cases, where both
  comparisons are false).
* Asynchronous calls that may throw are modelled with `Except String`;
  a `.error` is a thrown exception.
* The IndexedDB record store and the OPFS blob store are external
  collaborators; DB reads/writes are modelled as pure list operations and
  assumed not to throw, and the per-photo blob read + oracle call is one
  environment function `oracle : String → Except String (List FaceDetectionResult)`.
-/

namespace OAT

/-- A JavaScript number: `none` models `NaN` (or `undefined` read from an
array, which immediately turns into `NaN` in arithmetic). -/
abbrev JsNum := Option ℚ

/-- JS array read `a[i]`: out of bounds yields `undefined`, which behaves as
`NaN` once it enters arithmetic. -/
def jsGet (l : List ℚ) (i : ℕ) : JsNum := l.get? i

/-- JS addition: `NaN` propagates. -/
def jsAdd : JsNum → JsNum → JsNum
  | some a, some b => some (a + b)
  | _, _ => none

/-- JS subtraction: `NaN` propagates. -/
def jsSub : JsNum → JsNum → JsNum
  | some a, some b => some (a - b)
  | _, _ => none

/-- JS multiplication: `NaN` propagates. -/
def jsMul : JsNum → JsNum → JsNum
  | some a, some b => some (a * b)
  | _, _ => none

/-- JS strict comparison `a < b`: any comparison with `NaN` is false. -/
def jsLt : JsNum → JsNum → Bool
  | some a, some b => decide (a < b)
  | _, _ => false

/-- `Math.min`: returns `NaN` if an argument is `NaN`. -/
def jsMin : JsNum → JsNum → JsNum
  | some a, some b => some (min a b)
  | _, _ => none

/-- `Math.max`: returns `NaN` if an argument is `NaN`. -/
def jsMax : JsNum → JsNum → JsNum
  | some a, some b => some (max a b)
  | _, _ => none

/-- `FaceComparisonResult` (src/types/index.ts).  `distanceSq` carries the
squared Euclidean distance; see the header on why this is observation
equivalent to the source's `distance = Math.sqrt(sumSq)`. -/
structure FaceComparisonResult where
  isMatch : Bool
  distanceSq : JsNum
  similarity : JsNum
  confidence : JsNum
  deriving Repr, DecidableEq

/-- The loop `for (let i = 0; i < embedding1.length; i++) dotProduct += e1[i]*e2[i]`
from `compareFaces`.  Indices run over `embedding1`; an out-of-range read of
`embedding2` gives `NaN`. -/
def dotLoop (embedding1 embedding2 : List ℚ) : JsNum :=
  (List.range embedding1.length).foldl
    (fun acc i => jsAdd acc (jsMul (jsGet embedding1 i) (jsGet embedding2 i)))
    (some 0)

/-- The loop computing `sumSq += (e1[i] - e2[i])^2` from `compareFaces`. -/
def sumSqLoop (embedding1 embedding2 : List ℚ) : JsNum :=
  (List.range embedding1.length).foldl
    (fun acc i =>
      let diff := jsSub (jsGet embedding1 i) (jsGet embedding2 i)
      jsAdd acc (jsMul diff diff))
    (some 0)

/-- `THRESHOLD = 0.28` in `compareFaces` (face-detector.ts line 279). -/
def THRESHOLD : ℚ := 28 / 100

/-- `compareFaces` (face-detector.ts lines 259–286).  Note the source
performs no dimension check: it simply iterates over `embedding1`'s indices
and always returns a `FaceComparisonResult`. -/
def compareFaces (embedding1 embedding2 : List ℚ) : FaceComparisonResult :=
  let similarity := dotLoop embedding1 embedding2
  let distanceSq := sumSqLoop embedding1 embedding2
  let isMatch := jsLt (some THRESHOLD) similarity
  let confidence := jsMax (some 0) (jsMin (some 1) similarity)
  { isMatch := isMatch, distanceSq := distanceSq,
    similarity := similarity, confidence := confidence }

/-- Pure rational dot product over `embedding1`'s indices — the value
`dotLoop` takes when no read is out of range.  For unit vectors this is the
cosine similarity. -/
def dotQ (e1 e2 : List ℚ) : ℚ :=
  ((List.range e1.length).map (fun i => e1.getD i 0 * e2.getD i 0)).sum

/-- Pure rational squared Euclidean distance over `embedding1`'s indices. -/
def sumSqQ (e1 e2 : List ℚ) : ℚ :=
  ((List.range e1.length).map
    (fun i => (e1.getD i 0 - e2.getD i 0) * (e1.getD i 0 - e2.getD i 0))).sum

/-- Squared L2 norm, for stating the pre-normalisation hypothesis. -/
def normSqQ (e : List ℚ) : ℚ := (e.map (fun x => x * x)).sum

/-! ## The embedding oracle: `detectAllFaces` (face-detector.ts 140–183)

`detectAllFaces` interacts with three external effects for one call:
decoding the input blob (`blobToImage`), the face-api detector
(`faceapi.detectAllFaces … withFaceLandmarks`), and the per-face crop +
MobileFaceNet inference (`cropAndPreprocess` + `runRecognition`).  Each can
throw.  `DetectEnv` records the outcome of each for the call being
modelled; the per-face step is indexed by the face's position in the
detection list so different faces can fail independently. -/

/-- Bounding box of one detection, in source-image pixel space. -/
structure BoundingBox where
  x : ℚ
  y : ℚ
  width : ℚ
  height : ℚ
  deriving Repr, DecidableEq

/-- One face-api detection: a score and a box (the landmark data is only
consumed by the cropping step, which we fold into `recognize`). -/
structure Detection where
  score : ℚ
  box : BoundingBox
  deriving Repr, DecidableEq

/-- `FaceDetectionResult` (src/types/index.ts). -/
structure FaceDetectionResult where
  hasFace : Bool
  embedding : Option (List ℚ) := none
  confidence : JsNum := none
  boundingBox : Option BoundingBox := none
  deriving Repr, DecidableEq

/-- Environment of one `detectAllFaces` call: outcomes of the external
steps.  `.error` models a thrown exception. -/
structure DetectEnv where
  /-- `detectionModelsLoaded && recognitionSession` at call time. -/
  modelsLoaded : Bool
  /-- Outcome of `blobToImage` on the supplied blob. -/
  decode : Except String Unit
  /-- Outcome of `faceapi.detectAllFaces(image, …).withFaceLandmarks()`. -/
  detect : Except String (List Detection)
  /-- Outcome of `cropAndPreprocess` + `runRecognition` for the i-th
  detection: either a thrown exception or the L2-normalised embedding. -/
  recognize : ℕ → Detection → Except String (List ℚ)

/-- `detectAllFaces` (face-detector.ts 140–183).  Throws only when the
models are not loaded (the guard before the `try`); the outer `try/catch`
turns a decode or detector failure into a logged error and `return []`, and
the inner per-face `try/catch` skips the failing face (`continue`). -/
def detectAllFaces (env : DetectEnv) : Except String (List FaceDetectionResult) :=
  if ¬ env.modelsLoaded then
    .error "Models not loaded. Call initialize() first."
  else
    match env.decode with
    | .error _ => .ok []
    | .ok _ =>
      match env.detect with
      | .error _ => .ok []
      | .ok detections =>
        if detections.length = 0 then
          .ok []
        else
          .ok (detections.enum.filterMap (fun d =>
            match env.recognize d.1 d.2 with
            | .error _ => none
            | .ok embedding =>
              some { hasFace := true,
                     embedding := some embedding,
                     confidence := some d.2.score,
                     boundingBox := some d.2.box }))

/-! ## The progress store (src/store/processing.ts)

A zustand store; each action is a pure state-update function here.  The
pipeline mutates the store through these actions; an "observed progress
snapshot" is the store state after any one mutation, so the run functions
below also return the list of all states the store passes through. -/

/-- `ProcessingStatus` (src/types/index.ts). -/
inductive ProcessingStatus where
  | idle
  | uploading
  | calibrating
  | processing
  | complete
  | error
  deriving Repr, DecidableEq

/-- The zustand processing store's state (src/store/processing.ts). -/
structure ProcessingState where
  status : ProcessingStatus
  totalFiles : ℕ
  processedFiles : ℕ
  matchedFiles : ℕ
  currentFileId : Option String
  errorMsg : Option String
  failedFiles : List String
  deriving Repr, DecidableEq

/-- The store's initial state. -/
def initialState : ProcessingState :=
  { status := .idle, totalFiles := 0, processedFiles := 0, matchedFiles := 0,
    currentFileId := none, errorMsg := none, failedFiles := [] }

def setStatus (st : ProcessingState) (s : ProcessingStatus) : ProcessingState :=
  { st with status := s }

def setTotalFiles (st : ProcessingState) (count : ℕ) : ProcessingState :=
  { st with totalFiles := count }

def incrementProcessed (st : ProcessingState) : ProcessingState :=
  { st with processedFiles := st.processedFiles + 1 }

def incrementMatched (st : ProcessingState) : ProcessingState :=
  { st with matchedFiles := st.matchedFiles + 1 }

def setCurrentFile (st : ProcessingState) (fileId : Option String) : ProcessingState :=
  { st with currentFileId := fileId }

/-- `setError` sets the message and forces status `error` in one update. -/
def setError (st : ProcessingState) (e : String) : ProcessingState :=
  { st with errorMsg := some e, status := .error }

def addFailedFile (st : ProcessingState) (fileId : String) : ProcessingState :=
  { st with failedFiles := st.failedFiles ++ [fileId] }

/-! ## The record store and photo metadata (src/lib/dexie.ts, src/types/index.ts) -/

/-- `PhotoMetadata`, restricted to the fields the pipeline reads or writes
(`id`, `filename`, `processed`) and mutates (`hasFace`, `isMatch`,
`faceConfidence`, `processed`).  The remaining fields (`opfsPath`,
`timestamp`, `size`, `mimeType`, `source`, `driveId`) are never read nor
written by the pipeline and are omitted. -/
structure PhotoMetadata where
  id : String
  filename : String
  hasFace : Bool
  isMatch : Bool
  faceConfidence : Option JsNum
  processed : Bool
  deriving Repr, DecidableEq

/-- The `updates: Partial<PhotoMetadata>` object built in `processPhoto`:
`hasFace` and `processed` are always present; `isMatch` and
`faceConfidence` only when a best match was found (`none` = field absent
from the partial update). -/
structure PhotoUpdates where
  hasFace : Bool
  processed : Bool
  isMatch : Option Bool := none
  faceConfidence : Option JsNum := none
  deriving Repr, DecidableEq

/-- Applying a partial update to one record (Dexie `update` semantics:
absent fields keep their prior values). -/
def applyUpdates (p : PhotoMetadata) (u : PhotoUpdates) : PhotoMetadata :=
  { p with
    hasFace := u.hasFace,
    processed := u.processed,
    isMatch := u.isMatch.getD p.isMatch,
    faceConfidence :=
      match u.faceConfidence with
      | some c => some c
      | none => p.faceConfidence }

/-- `dbHelpers.updatePhoto id updates`: partial update of the record(s)
with primary key `id`. -/
def updatePhoto (dbp : List PhotoMetadata) (id : String) (u : PhotoUpdates) :
    List PhotoMetadata :=
  dbp.map (fun p => if p.id = id then applyUpdates p u else p)

/-- Look up the record with a given id. -/
def getRecord (dbp : List PhotoMetadata) (id : String) : Option PhotoMetadata :=
  dbp.find? (fun p => p.id = id)

/-! ## The batch pipeline (src/services/processing/processing-pipeline.ts) -/

/-- `FaceEmbedding` (src/types/index.ts) as stored in the auth store.  The
`embedding` field is `Option` because `processAll` defensively checks
`!refData.embedding` (stale persisted data may lack it). -/
structure FaceEmbedding where
  embedding : Option (List ℚ)
  timestamp : ℚ
  deriving Repr, DecidableEq

/-- The best-match fold from `processPhoto` (pipeline lines 142–156): scan
the detected faces in order, skip those without an embedding, compare each
remaining one against the reference, and keep the comparison with the
strictly lowest distance (`comparison.distance < bestMatch.distance`; on
`distanceSq` by strict monotonicity of `Math.sqrt`). -/
def bestMatchFold (ref : List ℚ) (faces : List FaceDetectionResult) :
    Option FaceComparisonResult :=
  faces.foldl
    (fun bestMatch face =>
      match face.embedding with
      | none => bestMatch
      | some emb =>
        let comparison := compareFaces ref emb
        match bestMatch with
        | none => some comparison
        | some b => if jsLt comparison.distanceSq b.distanceSq then some comparison else bestMatch)
    none

/-- Environment of one `processAll` run: the auth store's reference
embedding, the outcome of `this.initialize()`, the per-photo external work
(OPFS `readFile` composed with `faceScanner.detectAllFaces`, keyed by the
photo id — a `.error` is a throw from either), and the value of the
`cancelled` flag observed at the i-th loop-boundary check. -/
structure RunEnv where
  referenceFaceEmbedding : Option FaceEmbedding
  initOk : Bool
  oracle : String → Except String (List FaceDetectionResult)
  cancel : ℕ → Bool

/-- `processPhoto` (pipeline lines 121–171).  Returns the new store state,
the new record-store contents, and the store snapshots emitted inside the
call (only `incrementMatched` mutates the store here); a `.error` is the
exception propagated to `processAll`'s catch.  The only store mutation
precedes the only possible throw site (`oracle`), so a throwing call leaves
both store and records untouched, as in the source (the DB update is the
last statement and is assumed not to throw). -/
def processPhoto (ref : List ℚ) (oracle : String → Except String (List FaceDetectionResult))
    (photo : PhotoMetadata) (st : ProcessingState) (dbp : List PhotoMetadata) :
    Except String (ProcessingState × List PhotoMetadata × List ProcessingState) :=
  match oracle photo.id with
  | .error e => .error e
  | .ok faces =>
    let updates0 : PhotoUpdates := { hasFace := faces.length > 0, processed := true }
    if faces.length > 0 then
      match bestMatchFold ref faces with
      | some bestMatch =>
        let updates := { updates0 with
          isMatch := some bestMatch.isMatch,
          faceConfidence := some bestMatch.confidence }
        if bestMatch.isMatch then
          let st1 := incrementMatched st
          .ok (st1, updatePhoto dbp photo.id updates, [st1])
        else
          .ok (st, updatePhoto dbp photo.id updates, [])
      | none => .ok (st, updatePhoto dbp photo.id updates0, [])
    else
      .ok (st, updatePhoto dbp photo.id updates0, [])

/-- The per-item loop of `processAll` (pipeline lines 85–115), including
the final `setStatus('complete')` when the queue is exhausted.  `cancel 0`
is the `this.cancelled` value observed at this iteration's boundary check;
the recursive call shifts the observation stream.  Returns the final store
state, final records, and all store snapshots emitted from the loop on. -/
def runLoop (ref : List ℚ) (oracle : String → Except String (List FaceDetectionResult))
    (cancel : ℕ → Bool) :
    List PhotoMetadata → ProcessingState → List PhotoMetadata →
    ProcessingState × List PhotoMetadata × List ProcessingState
  | [], st, dbp =>
    let st1 := setStatus st .complete
    (st1, dbp, [st1])
  | photo :: rest, st, dbp =>
    if cancel 0 then
      let st1 := setStatus st .idle
      (st1, dbp, [st1])
    else
      let st1 := setCurrentFile st (some photo.id)
      match processPhoto ref oracle photo st1 dbp with
      | .ok (st2, dbp', snaps) =>
        let st3 := incrementProcessed st2
        let (stF, dbF, rest') := runLoop ref oracle (fun k => cancel (k + 1)) rest st3 dbp'
        (stF, dbF, st1 :: snaps ++ st3 :: rest')
      | .error _ =>
        let st2 := addFailedFile st1 photo.id
        let st3 := incrementProcessed st2
        let (stF, dbF, rest') := runLoop ref oracle (fun k => cancel (k + 1)) rest st3 dbp
        (stF, dbF, st1 :: st2 :: st3 :: rest')

/-- Wrong-dimension error message (pipeline line 58). -/
def staleCalibrationMsg (n : ℕ) : String :=
  "Stale calibration data (" ++ toString n ++ " dims, need 512). Please re-calibrate."

/-- `processAll` (pipeline lines 40–115).  Takes the store state and the
record-store contents at run start; returns the final store state, final
records, and the list of every store state the run passes through (one
entry per store mutation, in order). -/
def processAll (env : RunEnv) (st0 : ProcessingState) (db0 : List PhotoMetadata) :
    ProcessingState × List PhotoMetadata × List ProcessingState :=
  match env.referenceFaceEmbedding with
  | none =>
    let st := setError st0 "No reference face set. Please calibrate first."
    (st, db0, [st])
  | some refData =>
    match refData.embedding with
    | none =>
      let st := setError st0 "No reference face set. Please calibrate first."
      (st, db0, [st])
    | some referenceEmbedding =>
      if referenceEmbedding.length ≠ 512 then
        let st := setError st0 (staleCalibrationMsg referenceEmbedding.length)
        (st, db0, [st])
      else
        let st1 := setStatus st0 .calibrating
        if ¬ env.initOk then
          let st2 := setError st1 "Failed to load face detection model"
          (st2, db0, [st1, st2])
        else
          let photos := db0.filter (fun p => ¬ p.processed)
          if photos.length = 0 then
            let st2 := setStatus st1 .complete
            (st2, db0, [st1, st2])
          else
            let st2 := setTotalFiles st1 photos.length
            let st3 := setStatus st2 .processing
            let (stF, dbF, snaps) := runLoop referenceEmbedding env.oracle env.cancel photos st3 db0
            (stF, dbF, st1 :: st2 :: st3 :: snaps)

/-- `cancel()` (pipeline lines 176–179) only sets the flag; in the model the
flag's observed values are the `cancel` stream, which is therefore assumed
monotone (once true, stays true) where a theorem needs it. -/
def cancelAt (m : ℕ) : ℕ → Bool := fun i => decide (m ≤ i)

/-! ## Lemmas about the similarity scorer -/

theorem jsAdd_none_left (a : JsNum) : jsAdd none a = none := by cases a <;> rfl

theorem jsAdd_none_right (a : JsNum) : jsAdd a none = none := by cases a <;> rfl

theorem jsMul_none_right (a : JsNum) : jsMul a none = none := by cases a <;> rfl

/-- Once the accumulator is `NaN`, a `+=` loop stays `NaN`. -/
theorem foldl_jsAdd_none (f : ℕ → JsNum) (l : List ℕ) :
    l.foldl (fun acc i => jsAdd acc (f i)) none = none := by
  induction l with
  | nil => rfl
  | cons i l ih => simpa [jsAdd_none_left] using ih

/-- If any term of a `+=` loop is `NaN`, the result is `NaN`. -/
theorem foldl_jsAdd_mem_none (f : ℕ → JsNum) (l : List ℕ) (q : JsNum)
    (h : ∃ i ∈ l, f i = none) :
    l.foldl (fun acc i => jsAdd acc (f i)) q = none := by
  induction l generalizing q with
  | nil => simp at h
  | cons i l ih =>
    obtain ⟨j, hj, hfj⟩ := h
    rcases List.mem_cons.mp hj with rfl | hj'
    · simp [hfj, jsAdd_none_right, foldl_jsAdd_none]
    · exact ih (jsAdd q (f i)) ⟨j, hj', hfj⟩

/-- A `+=` loop whose terms are all numbers computes their rational sum. -/
theorem foldl_jsAdd_some (f : ℕ → JsNum) (l : List ℕ)
    (h : ∀ i ∈ l, (f i).isSome) (q : ℚ) :
    l.foldl (fun acc i => jsAdd acc (f i)) (some q)
      = some (q + (l.map (fun i => (f i).getD 0)).sum) := by
  induction l generalizing q with
  | nil => simp
  | cons i l ih =>
    obtain ⟨qi, hqi⟩ := Option.isSome_iff_exists.mp (h i (by simp))
    have step : jsAdd (some q) (f i) = some (q + qi) := by rw [hqi]; rfl
    rw [List.foldl_cons, step, ih (fun j hj => h j (List.mem_cons_of_mem _ hj))]
    simp [hqi, add_assoc]

/-- When no read is out of range, `dotLoop` computes the rational dot
product. -/
theorem dotLoop_eq_dotQ (e1 e2 : List ℚ) (h : e1.length ≤ e2.length) :
    dotLoop e1 e2 = some (dotQ e1 e2) := by
  unfold dotLoop dotQ
  rw [foldl_jsAdd_some]
  · rw [zero_add]
    congr 1
    apply congrArg List.sum
    apply List.map_congr_left
    intro i hi
    have hi1 : i < e1.length := List.mem_range.mp hi
    have hi2 : i < e2.length := lt_of_lt_of_le hi1 h
    simp [jsGet, jsMul, List.get?_eq_getElem?, List.getElem?_eq_getElem hi1,
      List.getElem?_eq_getElem hi2, List.getD_eq_getElem _ _ hi1,
      List.getD_eq_getElem _ _ hi2]
  · intro i hi
    have hi1 : i < e1.length := List.mem_range.mp hi
    have hi2 : i < e2.length := lt_of_lt_of_le hi1 h
    simp [jsGet, jsMul, List.get?_eq_getElem?, List.getElem?_eq_getElem hi1,
      List.getElem?_eq_getElem hi2]

/-- When no read is out of range, `sumSqLoop` computes the rational squared
Euclidean distance. -/
theorem sumSqLoop_eq_sumSqQ (e1 e2 : List ℚ) (h : e1.length ≤ e2.length) :
    sumSqLoop e1 e2 = some (sumSqQ e1 e2) := by
  unfold sumSqLoop sumSqQ
  rw [foldl_jsAdd_some]
  · rw [zero_add]
    congr 1
    apply congrArg List.sum
    apply List.map_congr_left
    intro i hi
    have hi1 : i < e1.length := List.mem_range.mp hi
    have hi2 : i < e2.length := lt_of_lt_of_le hi1 h
    simp [jsGet, jsMul, jsSub, List.get?_eq_getElem?, List.getElem?_eq_getElem hi1,
      List.getElem?_eq_getElem hi2, List.getD_eq_getElem _ _ hi1,
      List.getD_eq_getElem _ _ hi2]
  · intro i hi
    have hi1 : i < e1.length := List.mem_range.mp hi
    have hi2 : i < e2.length := lt_of_lt_of_le hi1 h
    simp [jsGet, jsMul, jsSub, List.get?_eq_getElem?, List.getElem?_eq_getElem hi1,
      List.getElem?_eq_getElem hi2]

/-- When the second embedding is the shorter one, the loops read it out of
range and every accumulated value is `NaN`. -/
theorem dotLoop_eq_none (e1 e2 : List ℚ) (h : e2.length < e1.length) :
    dotLoop e1 e2 = none := by
  unfold dotLoop
  apply foldl_jsAdd_mem_none
  refine ⟨e2.length, List.mem_range.mpr h, ?_⟩
  have : jsGet e2 e2.length = none := by
    simp [jsGet, List.get?_eq_getElem?]
  rw [this, jsMul_none_right]

/-- `jsGet` does not see past the first `n` entries when `i < n`. -/
theorem jsGet_take (l : List ℚ) (n i : ℕ) (h : i < n) :
    jsGet (l.take n) i = jsGet l i := by
  simp [jsGet, List.get?_eq_getElem?, List.getElem?_take, h]

/-- `dotLoop` only reads the first `|embedding1|` entries of `embedding2`. -/
theorem dotLoop_take (e1 e2 : List ℚ) :
    dotLoop e1 (e2.take e1.length) = dotLoop e1 e2 := by
  unfold dotLoop
  apply List.foldl_ext
  intro acc i hi
  rw [jsGet_take _ _ _ (List.mem_range.mp hi)]

/-- `sumSqLoop` only reads the first `|embedding1|` entries of `embedding2`. -/
theorem sumSqLoop_take (e1 e2 : List ℚ) :
    sumSqLoop e1 (e2.take e1.length) = sumSqLoop e1 e2 := by
  unfold sumSqLoop
  apply List.foldl_ext
  intro acc i hi
  rw [jsGet_take _ _ _ (List.mem_range.mp hi)]

/-- Closed form of `compareFaces` when no read is out of range: match iff
the dot product strictly exceeds the threshold, confidence clamped into
`[0,1]`. -/
theorem compareFaces_eq (e1 e2 : List ℚ) (h : e1.length ≤ e2.length) :
    compareFaces e1 e2 =
      { isMatch := decide (THRESHOLD < dotQ e1 e2),
        distanceSq := some (sumSqQ e1 e2),
        similarity := some (dotQ e1 e2),
        confidence := some (max 0 (min 1 (dotQ e1 e2))) } := by
  unfold compareFaces
  rw [dotLoop_eq_dotQ _ _ h, sumSqLoop_eq_sumSqQ _ _ h]
  rfl

/-! ## Lemmas about record updates -/

theorem applyUpdates_id (p : PhotoMetadata) (u : PhotoUpdates) :
    (applyUpdates p u).id = p.id := rfl

theorem getRecord_cons (p : PhotoMetadata) (dbp : List PhotoMetadata) (id : String) :
    getRecord (p :: dbp) id = if p.id = id then some p else getRecord dbp id := by
  by_cases h : p.id = id <;> simp [getRecord, List.find?_cons, h]

theorem updatePhoto_cons (p : PhotoMetadata) (dbp : List PhotoMetadata)
    (id : String) (u : PhotoUpdates) :
    updatePhoto (p :: dbp) id u =
      (if p.id = id then applyUpdates p u else p) :: updatePhoto dbp id u := rfl

/-- Updating the record with key `id` turns its looked-up value into the
updated one. -/
theorem getRecord_updatePhoto_self (dbp : List PhotoMetadata) (id : String)
    (u : PhotoUpdates) (q : PhotoMetadata) (h : getRecord dbp id = some q) :
    getRecord (updatePhoto dbp id u) id = some (applyUpdates q u) := by
  induction dbp with
  | nil => simp [getRecord] at h
  | cons p dbp ih =>
    rw [getRecord_cons] at h
    rw [updatePhoto_cons]
    by_cases hp : p.id = id
    · rw [if_pos hp] at h
      have hq : p = q := Option.some_injective _ h
      subst hq
      rw [if_pos hp, getRecord_cons, if_pos (applyUpdates_id p u ▸ hp)]
    · rw [if_neg hp] at h
      rw [if_neg hp, getRecord_cons, if_neg hp]
      exact ih h

/-- Updating the record with a different key leaves a lookup unchanged. -/
theorem getRecord_updatePhoto_ne (dbp : List PhotoMetadata) (id id' : String)
    (u : PhotoUpdates) (h : id ≠ id') :
    getRecord (updatePhoto dbp id' u) id = getRecord dbp id := by
  induction dbp with
  | nil => rfl
  | cons p dbp ih =>
    rw [updatePhoto_cons, getRecord_cons]
    by_cases hp : p.id = id'
    · have hpid : ¬ (applyUpdates p u).id = id := by
        rw [applyUpdates_id, hp]
        exact fun he => h he.symm
      rw [if_pos hp, getRecord_cons, if_neg hpid,
        if_neg (fun he : p.id = id => h (he.symm.trans hp))]
      exact ih
    · rw [if_neg hp, getRecord_cons]
      by_cases hq : p.id = id
      · rw [if_pos hq, if_pos hq]
      · rw [if_neg hq, if_neg hq]
        exact ih

/-- With pairwise distinct ids, every record looks itself up. -/
theorem getRecord_self_of_nodup (dbp : List PhotoMetadata)
    (hnd : (dbp.map (fun p => p.id)).Nodup) (p : PhotoMetadata) (hp : p ∈ dbp) :
    getRecord dbp p.id = some p := by
  induction dbp with
  | nil => simp at hp
  | cons r dbp ih =>
    rw [List.map_cons, List.nodup_cons] at hnd
    rw [getRecord_cons]
    rcases List.mem_cons.mp hp with rfl | hp'
    · rw [if_pos rfl]
    · have hr : ¬ r.id = p.id := fun he =>
        hnd.1 (he ▸ List.mem_map_of_mem (fun p => p.id) hp')
      rw [if_neg hr]
      exact ih hnd.2 hp'

/-! ## Lemmas about the best-match fold -/

/-- The distance value of a comparison whose distance is a number. -/
def distOf (c : FaceComparisonResult) : ℚ := c.distanceSq.getD 0

/-- One step of the best-match fold, on the comparison list. -/
def stepBest (acc : Option FaceComparisonResult) (c : FaceComparisonResult) :
    Option FaceComparisonResult :=
  match acc with
  | none => some c
  | some b => if jsLt c.distanceSq b.distanceSq then some c else some b

/-- `bestMatchFold` is the fold of `stepBest` over the comparisons of the
faces that carry embeddings, in detection order. -/
theorem bestMatchFold_eq_foldl (ref : List ℚ) (faces : List FaceDetectionResult) :
    bestMatchFold ref faces =
      ((faces.filterMap (fun f => f.embedding)).map (compareFaces ref)).foldl
        stepBest none := by
  suffices h : ∀ (fs : List FaceDetectionResult) (acc : Option FaceComparisonResult),
      fs.foldl
        (fun bestMatch face =>
          match face.embedding with
          | none => bestMatch
          | some emb =>
            let comparison := compareFaces ref emb
            match bestMatch with
            | none => some comparison
            | some b =>
              if jsLt comparison.distanceSq b.distanceSq then some comparison
              else bestMatch)
        acc
      = ((fs.filterMap (fun f => f.embedding)).map (compareFaces ref)).foldl
          stepBest acc by
    exact h faces none
  intro fs
  induction fs with
  | nil => intro acc; rfl
  | cons f fs ih =>
    intro acc
    rcases he : f.embedding with _ | emb
    · simp only [List.foldl_cons, List.filterMap_cons, he]
      exact ih acc
    · cases acc with
      | none =>
        simp only [List.foldl_cons, List.filterMap_cons, he, List.map_cons, stepBest]
        exact ih _
      | some b =>
        simp only [List.foldl_cons, List.filterMap_cons, he, List.map_cons, stepBest]
        exact ih _

/-- When all faces lack an embedding, the fold finds nothing. -/
theorem bestMatchFold_all_none (ref : List ℚ) (faces : List FaceDetectionResult)
    (h : ∀ f ∈ faces, f.embedding = none) :
    bestMatchFold ref faces = none := by
  rw [bestMatchFold_eq_foldl]
  have hnil : faces.filterMap (fun f => f.embedding) = [] := by
    rw [List.filterMap_eq_nil_iff]
    intro f hf
    simp [h f hf]
  rw [hnil]
  rfl

/-- First-minimum characterisation of the `stepBest` fold from a `some`
accumulator: the result is the accumulator if nothing beats it strictly,
otherwise the first list element strictly below everything before it and
weakly below everything. -/
theorem foldl_stepBest_char (cs : List FaceComparisonResult) :
    ∀ b : FaceComparisonResult, b.distanceSq.isSome →
    (∀ c ∈ cs, c.distanceSq.isSome) →
    ∃ r, cs.foldl stepBest (some b) = some r ∧
      ((r = b ∧ ∀ c ∈ cs, distOf b ≤ distOf c) ∨
       (∃ pre post, cs = pre ++ r :: post ∧ distOf r < distOf b ∧
         (∀ c ∈ pre, distOf r < distOf c) ∧ (∀ c ∈ cs, distOf r ≤ distOf c))) := by
  induction cs with
  | nil =>
    intro b _ _
    exact ⟨b, rfl, Or.inl ⟨rfl, by simp⟩⟩
  | cons c cs ih =>
    intro b hb hcs
    obtain ⟨qb, hqb⟩ := Option.isSome_iff_exists.mp hb
    obtain ⟨qc, hqc⟩ := Option.isSome_iff_exists.mp (hcs c (by simp))
    have hstep : stepBest (some b) c =
        if distOf c < distOf b then some c else some b := by
      simp [stepBest, jsLt, hqb, hqc, distOf]
    by_cases hlt : distOf c < distOf b
    · rw [List.foldl_cons, hstep, if_pos hlt]
      obtain ⟨r, hr, hcase⟩ :=
        ih c (by simp [hqc]) (fun x hx => hcs x (List.mem_cons_of_mem _ hx))
      refine ⟨r, hr, Or.inr ?_⟩
      rcases hcase with ⟨rfl, hall⟩ | ⟨pre, post, hdec, hrb, hpre, hall⟩
      · exact ⟨[], cs, by simp, hlt, by simp,
          fun x hx => by
            rcases List.mem_cons.mp hx with rfl | hx'
            · exact le_refl _
            · exact hall x hx'⟩
      · refine ⟨c :: pre, post, by simp [hdec], lt_trans hrb hlt, ?_, ?_⟩
        · intro x hx
          rcases List.mem_cons.mp hx with rfl | hx'
          · exact hrb
          · exact hpre x hx'
        · intro x hx
          rcases List.mem_cons.mp hx with rfl | hx'
          · exact le_of_lt hrb
          · exact hall x hx'
    · rw [List.foldl_cons, hstep, if_neg hlt]
      obtain ⟨r, hr, hcase⟩ :=
        ih b hb (fun x hx => hcs x (List.mem_cons_of_mem _ hx))
      refine ⟨r, hr, ?_⟩
      rcases hcase with ⟨rfl, hall⟩ | ⟨pre, post, hdec, hrb, hpre, hall⟩
      · refine Or.inl ⟨rfl, fun x hx => ?_⟩
        rcases List.mem_cons.mp hx with rfl | hx'
        · exact le_of_not_lt hlt
        · exact hall x hx'
      · refine Or.inr ⟨c :: pre, post, by simp [hdec], hrb, ?_, ?_⟩
        · intro x hx
          rcases List.mem_cons.mp hx with rfl | hx'
          · exact lt_of_lt_of_le hrb (le_of_not_lt hlt)
          · exact hpre x hx'
        · intro x hx
          rcases List.mem_cons.mp hx with rfl | hx'
          · exact le_of_lt (lt_of_lt_of_le hrb (le_of_not_lt hlt))
          · exact hall x hx'

/-- The distance field of a comparison is a number whenever the reference
is not longer than the compared embedding. -/
theorem compareFaces_distanceSq_isSome (ref e : List ℚ) (h : ref.length ≤ e.length) :
    (compareFaces ref e).distanceSq.isSome := by
  rw [compareFaces_eq _ _ h]
  rfl

/-- First-minimum characterisation of `bestMatchFold`: on a face list whose
embedded faces all admit the comparison (reference not longer), it returns
the comparison of the first embedded face attaining the minimal distance —
strictly below every earlier embedded face, weakly below all of them. -/
theorem bestMatchFold_first_min (ref : List ℚ) (faces : List FaceDetectionResult)
    (hne : faces.filterMap (fun f => f.embedding) ≠ [])
    (hlen : ∀ e ∈ faces.filterMap (fun f => f.embedding), ref.length ≤ e.length) :
    ∃ r pre post,
      bestMatchFold ref faces = some r ∧
      (faces.filterMap (fun f => f.embedding)).map (compareFaces ref) =
        pre ++ r :: post ∧
      (∀ c ∈ pre, distOf r < distOf c) ∧
      (∀ c ∈ pre ++ r :: post, distOf r ≤ distOf c) := by
  rw [bestMatchFold_eq_foldl]
  rcases hembs : faces.filterMap (fun f => f.embedding) with _ | ⟨e0, es⟩
  · exact absurd hembs hne
  · rw [hembs]
    have hsome : ∀ c ∈ ((e0 :: es).map (compareFaces ref)), c.distanceSq.isSome := by
      intro c hc
      obtain ⟨e, he, rfl⟩ := List.mem_map.mp hc
      exact compareFaces_distanceSq_isSome ref e (hlen e (hembs ▸ he))
    rw [List.map_cons, List.foldl_cons]
    have hstep : stepBest none (compareFaces ref e0) = some (compareFaces ref e0) := rfl
    rw [hstep]
    obtain ⟨r, hr, hcase⟩ :=
      foldl_stepBest_char (es.map (compareFaces ref)) (compareFaces ref e0)
        (hsome _ (by simp))
        (fun c hc => hsome c (by simp [hc]))
    rcases hcase with ⟨rfl, hall⟩ | ⟨pre, post, hdec, hrb, hpre, hall⟩
    · refine ⟨compareFaces ref e0, [], es.map (compareFaces ref), hr, by simp, by simp, ?_⟩
      intro c hc
      rw [List.nil_append] at hc
      rcases List.mem_cons.mp hc with rfl | hc'
      · exact le_refl _
      · exact hall c hc'
    · refine ⟨r, compareFaces ref e0 :: pre, post, hr, by simp [hdec], ?_, ?_⟩
      · intro c hc
        rcases List.mem_cons.mp hc with rfl | hc'
        · exact hrb
        · exact hpre c hc'
      · intro c hc
        rcases List.mem_cons.mp hc with rfl | hc'
        · exact le_of_lt hrb
        · exact hall c (by simpa [hdec] using hc')

/-! ## Equational lemmas for `processPhoto` -/

/-- The partial update `processPhoto` writes for a given detected-face
list. -/
def photoUpdates (ref : List ℚ) (faces : List FaceDetectionResult) : PhotoUpdates :=
  match bestMatchFold ref faces with
  | some bm =>
    { hasFace := faces.length > 0, processed := true,
      isMatch := some bm.isMatch, faceConfidence := some bm.confidence }
  | none => { hasFace := faces.length > 0, processed := true }

/-- Whether `processPhoto` calls `incrementMatched` for a given
detected-face list. -/
def photoMatched (ref : List ℚ) (faces : List FaceDetectionResult) : Bool :=
  match bestMatchFold ref faces with
  | some bm => bm.isMatch
  | none => false

/-- A throwing oracle call propagates out of `processPhoto` untouched. -/
theorem processPhoto_error (ref : List ℚ)
    (oracle : String → Except String (List FaceDetectionResult))
    (photo : PhotoMetadata) (st : ProcessingState) (dbp : List PhotoMetadata)
    (e : String) (h : oracle photo.id = .error e) :
    processPhoto ref oracle photo st dbp = .error e := by
  unfold processPhoto
  rw [h]

/-- Closed form of a successful `processPhoto` call. -/
theorem processPhoto_ok (ref : List ℚ)
    (oracle : String → Except String (List FaceDetectionResult))
    (photo : PhotoMetadata) (st : ProcessingState) (dbp : List PhotoMetadata)
    (faces : List FaceDetectionResult) (h : oracle photo.id = .ok faces) :
    processPhoto ref oracle photo st dbp =
      .ok (if photoMatched ref faces then incrementMatched st else st,
           updatePhoto dbp photo.id (photoUpdates ref faces),
           if photoMatched ref faces then [incrementMatched st] else []) := by
  unfold processPhoto photoUpdates photoMatched
  rw [h]
  rcases hf : faces with _ | ⟨f, fs⟩
  · rfl
  · simp only [List.length_cons]
    rcases hbm : bestMatchFold ref (f :: fs) with _ | bm
    · simp
    · rcases hm : bm.isMatch with _ | _ <;> simp [hm]

/-- Convenient closed form of `applyUpdates` for a full update. -/
theorem applyUpdates_full (q : PhotoMetadata) (hf pr : Bool) (im : Bool) (fc : JsNum) :
    applyUpdates q { hasFace := hf, processed := pr, isMatch := some im,
                     faceConfidence := some fc } =
      { q with hasFace := hf, processed := pr, isMatch := im,
               faceConfidence := some fc } := rfl

/-- Convenient closed form of `applyUpdates` for a base update (no match
fields). -/
theorem applyUpdates_base (q : PhotoMetadata) (hf pr : Bool) :
    applyUpdates q { hasFace := hf, processed := pr } =
      { q with hasFace := hf, processed := pr } := by
  simp [applyUpdates]

/-! ## Lemmas about the run loop -/

/-- Whether the modelled per-photo work (blob read + detection) throws. -/
def oracleThrows (oracle : String → Except String (List FaceDetectionResult))
    (p : PhotoMetadata) : Bool :=
  match oracle p.id with
  | .error _ => true
  | .ok _ => false

theorem photoUpdates_processed (ref : List ℚ) (faces : List FaceDetectionResult) :
    (photoUpdates ref faces).processed = true := by
  unfold photoUpdates
  cases bestMatchFold ref faces <;> rfl

theorem applyUpdates_processed (q : PhotoMetadata) (u : PhotoUpdates) :
    (applyUpdates q u).processed = u.processed := rfl

theorem runLoop_nil (ref : List ℚ)
    (oracle : String → Except String (List FaceDetectionResult))
    (cancel : ℕ → Bool) (st : ProcessingState) (dbp : List PhotoMetadata) :
    runLoop ref oracle cancel [] st dbp =
      (setStatus st .complete, dbp, [setStatus st .complete]) := rfl

/-- One loop step when the cancellation flag is observed set. -/
theorem runLoop_cons_cancelled (ref : List ℚ)
    (oracle : String → Except String (List FaceDetectionResult))
    (cancel : ℕ → Bool) (p : PhotoMetadata) (ps : List PhotoMetadata)
    (st : ProcessingState) (dbp : List PhotoMetadata) (h : cancel 0 = true) :
    runLoop ref oracle cancel (p :: ps) st dbp =
      (setStatus st .idle, dbp, [setStatus st .idle]) := by
  rw [runLoop, if_pos (by rw [h])]

/-- One loop step when the per-photo work throws. -/
theorem runLoop_cons_error (ref : List ℚ)
    (oracle : String → Except String (List FaceDetectionResult))
    (cancel : ℕ → Bool) (p : PhotoMetadata) (ps : List PhotoMetadata)
    (st : ProcessingState) (dbp : List PhotoMetadata) (e : String)
    (hcan : cancel 0 = false) (horc : oracle p.id = .error e) :
    runLoop ref oracle cancel (p :: ps) st dbp =
      ((runLoop ref oracle (fun k => cancel (k + 1)) ps
          (incrementProcessed (addFailedFile (setCurrentFile st (some p.id)) p.id))
          dbp).1,
       (runLoop ref oracle (fun k => cancel (k + 1)) ps
          (incrementProcessed (addFailedFile (setCurrentFile st (some p.id)) p.id))
          dbp).2.1,
       setCurrentFile st (some p.id) ::
         addFailedFile (setCurrentFile st (some p.id)) p.id ::
         incrementProcessed (addFailedFile (setCurrentFile st (some p.id)) p.id) ::
         (runLoop ref oracle (fun k => cancel (k + 1)) ps
            (incrementProcessed (addFailedFile (setCurrentFile st (some p.id)) p.id))
            dbp).2.2) := by
  rw [runLoop, if_neg (by rw [hcan]; exact Bool.false_ne_true)]
  simp only [processPhoto_error ref oracle p (setCurrentFile st (some p.id)) dbp e horc]

/-- One loop step when the per-photo work succeeds. -/
theorem runLoop_cons_ok (ref : List ℚ)
    (oracle : String → Except String (List FaceDetectionResult))
    (cancel : ℕ → Bool) (p : PhotoMetadata) (ps : List PhotoMetadata)
    (st : ProcessingState) (dbp : List PhotoMetadata)
    (faces : List FaceDetectionResult)
    (hcan : cancel 0 = false) (horc : oracle p.id = .ok faces) :
    runLoop ref oracle cancel (p :: ps) st dbp =
      ((runLoop ref oracle (fun k => cancel (k + 1)) ps
          (incrementProcessed
            (if photoMatched ref faces
             then incrementMatched (setCurrentFile st (some p.id))
             else setCurrentFile st (some p.id)))
          (updatePhoto dbp p.id (photoUpdates ref faces))).1,
       (runLoop ref oracle (fun k => cancel (k + 1)) ps
          (incrementProcessed
            (if photoMatched ref faces
             then incrementMatched (setCurrentFile st (some p.id))
             else setCurrentFile st (some p.id)))
          (updatePhoto dbp p.id (photoUpdates ref faces))).2.1,
       setCurrentFile st (some p.id) ::
         (if photoMatched ref faces
          then [incrementMatched (setCurrentFile st (some p.id))]
          else []) ++
         incrementProcessed
           (if photoMatched ref faces
            then incrementMatched (setCurrentFile st (some p.id))
            else setCurrentFile st (some p.id)) ::
         (runLoop ref oracle (fun k => cancel (k + 1)) ps
            (incrementProcessed
              (if photoMatched ref faces
               then incrementMatched (setCurrentFile st (some p.id))
               else setCurrentFile st (some p.id)))
            (updatePhoto dbp p.id (photoUpdates ref faces))).2.2) := by
  rw [runLoop, if_neg (by rw [hcan]; exact Bool.false_ne_true)]
  simp only [processPhoto_ok ref oracle p (setCurrentFile st (some p.id)) dbp faces horc]

/-- Store-counter accounting of an uncancelled loop: it always completes,
counts every queued photo exactly once (whether or not its work threw),
leaves the total untouched, and appends to the failed list exactly the ids
of the photos whose work threw, in order. -/
theorem runLoop_noCancel (ref : List ℚ)
    (oracle : String → Except String (List FaceDetectionResult))
    (ps : List PhotoMetadata) :
    ∀ (cancel : ℕ → Bool), (∀ i, cancel i = false) →
    ∀ (st : ProcessingState) (dbp : List PhotoMetadata),
      (runLoop ref oracle cancel ps st dbp).1.status = .complete ∧
      (runLoop ref oracle cancel ps st dbp).1.processedFiles
        = st.processedFiles + ps.length ∧
      (runLoop ref oracle cancel ps st dbp).1.totalFiles = st.totalFiles ∧
      (runLoop ref oracle cancel ps st dbp).1.failedFiles = st.failedFiles ++
        (ps.filter (fun p => oracleThrows oracle p)).map (fun p => p.id) := by
  induction ps with
  | nil =>
    intro cancel _ st dbp
    rw [runLoop_nil]
    exact ⟨rfl, by simp [setStatus], rfl, by simp [setStatus]⟩
  | cons p ps ih =>
    intro cancel hc st dbp
    have hc' : ∀ i, (fun k => cancel (k + 1)) i = false := fun i => hc (i + 1)
    rcases horc : oracle p.id with e | faces
    · have hthrows : oracleThrows oracle p = true := by unfold oracleThrows; rw [horc]
      rw [runLoop_cons_error ref oracle cancel p ps st dbp e (hc 0) horc]
      obtain ⟨h1, h2, h3, h4⟩ := ih _ hc'
        (incrementProcessed (addFailedFile (setCurrentFile st (some p.id)) p.id)) dbp
      refine ⟨h1, ?_, h3, ?_⟩
      · rw [h2]
        simp only [incrementProcessed, addFailedFile, setCurrentFile, List.length_cons]
        omega
      · rw [h4]
        simp [incrementProcessed, addFailedFile, setCurrentFile, hthrows]
    · have hthrows : oracleThrows oracle p = false := by unfold oracleThrows; rw [horc]
      rw [runLoop_cons_ok ref oracle cancel p ps st dbp faces (hc 0) horc]
      obtain ⟨h1, h2, h3, h4⟩ := ih _ hc'
        (incrementProcessed
          (if photoMatched ref faces
           then incrementMatched (setCurrentFile st (some p.id))
           else setCurrentFile st (some p.id)))
        (updatePhoto dbp p.id (photoUpdates ref faces))
      refine ⟨h1, ?_, ?_, ?_⟩
      · rw [h2]
        rcases photoMatched ref faces with _ | _ <;>
          simp only [if_true, if_false, incrementProcessed, incrementMatched,
            setCurrentFile, List.length_cons, Bool.false_eq_true, ite_false, ite_true] <;>
          omega
      · rw [h3]
        rcases photoMatched ref faces with _ | _ <;>
          simp [incrementProcessed, incrementMatched, setCurrentFile]
      · rw [h4]
        rcases photoMatched ref faces with _ | _ <;>
          simp [incrementProcessed, incrementMatched, setCurrentFile, hthrows]

/-- Records whose id never occurs in the queue are untouched by the loop,
whatever the cancellation stream does. -/
theorem runLoop_frame (ref : List ℚ)
    (oracle : String → Except String (List FaceDetectionResult))
    (ps : List PhotoMetadata) :
    ∀ (cancel : ℕ → Bool) (st : ProcessingState) (dbp : List PhotoMetadata)
      (id : String), (∀ p ∈ ps, p.id ≠ id) →
      getRecord (runLoop ref oracle cancel ps st dbp).2.1 id = getRecord dbp id := by
  induction ps with
  | nil => intro cancel st dbp id _; rw [runLoop_nil]
  | cons p ps ih =>
    intro cancel st dbp id hid
    rcases hcan : cancel 0 with _ | _
    · rcases horc : oracle p.id with e | faces
      · rw [runLoop_cons_error ref oracle cancel p ps st dbp e hcan horc]
        exact ih _ _ _ id (fun x hx => hid x (List.mem_cons_of_mem _ hx))
      · rw [runLoop_cons_ok ref oracle cancel p ps st dbp faces hcan horc]
        rw [ih _ _ _ id (fun x hx => hid x (List.mem_cons_of_mem _ hx))]
        exact getRecord_updatePhoto_ne dbp id p.id (photoUpdates ref faces)
          (fun he => hid p (List.mem_cons_self p ps) he.symm)
    · rw [runLoop_cons_cancelled ref oracle cancel p ps st dbp hcan]

/-- Final record of a queued photo after an uncancelled loop: its own
update, applied exactly once — later iterations do not touch it, and a
photo whose work threw keeps its prior record. -/
theorem runLoop_record_noCancel (ref : List ℚ)
    (oracle : String → Except String (List FaceDetectionResult))
    (ps : List PhotoMetadata) :
    ∀ (cancel : ℕ → Bool), (∀ i, cancel i = false) →
    ∀ (st : ProcessingState) (dbp : List PhotoMetadata),
      (ps.map (fun p => p.id)).Nodup →
      ∀ p ∈ ps, ∀ q, getRecord dbp p.id = some q →
      getRecord (runLoop ref oracle cancel ps st dbp).2.1 p.id =
        some (match oracle p.id with
              | .ok faces => applyUpdates q (photoUpdates ref faces)
              | .error _ => q) := by
  induction ps with
  | nil => intro _ _ _ _ _ p hp; simp at hp
  | cons r ps ih =>
    intro cancel hc st dbp hnd p hp q hq
    rw [List.map_cons, List.nodup_cons] at hnd
    have hc' : ∀ i, (fun k => cancel (k + 1)) i = false := fun i => hc (i + 1)
    rcases List.mem_cons.mp hp with rfl | hp'
    · have hnotin : ∀ x ∈ ps, x.id ≠ p.id := fun x hx he =>
        hnd.1 (he ▸ List.mem_map_of_mem (fun p => p.id) hx)
      rcases horc : oracle p.id with e | faces
      · rw [runLoop_cons_error ref oracle cancel p ps st dbp e (hc 0) horc]
        rw [runLoop_frame ref oracle ps _ _ dbp p.id hnotin]
        rw [hq]
      · rw [runLoop_cons_ok ref oracle cancel p ps st dbp faces (hc 0) horc]
        rw [runLoop_frame ref oracle ps _ _ _ p.id hnotin]
        exact getRecord_updatePhoto_self dbp p.id _ q hq
    · have hne : r.id ≠ p.id := fun he =>
        hnd.1 (he ▸ List.mem_map_of_mem (fun p => p.id) hp')
      rcases horc : oracle r.id with e | faces
      · rw [runLoop_cons_error ref oracle cancel r ps st dbp e (hc 0) horc]
        exact ih _ hc' _ dbp hnd.2 p hp' q hq
      · rw [runLoop_cons_ok ref oracle cancel r ps st dbp faces (hc 0) horc]
        refine ih _ hc' _ _ hnd.2 p hp' q ?_
        rw [getRecord_updatePhoto_ne dbp p.id r.id _ (fun he => hne he.symm)]
        exact hq

/-! ## Path equations for `processAll` -/

/-- Message written when no usable reference embedding exists. -/
def noRefMsg : String := "No reference face set. Please calibrate first."

/-- Message written when model initialisation fails. -/
def initFailMsg : String := "Failed to load face detection model"

/-- The store state just before the loop starts, in a successful start. -/
def runStart (st0 : ProcessingState) (n : ℕ) : ProcessingState :=
  setStatus (setTotalFiles (setStatus st0 .calibrating) n) .processing

theorem processAll_noRef (env : RunEnv) (st0 : ProcessingState)
    (db0 : List PhotoMetadata) (h : env.referenceFaceEmbedding = none) :
    processAll env st0 db0 =
      (setError st0 noRefMsg, db0, [setError st0 noRefMsg]) := by
  unfold processAll
  rw [h]
  rfl

theorem processAll_noEmb (env : RunEnv) (st0 : ProcessingState)
    (db0 : List PhotoMetadata) (r : FaceEmbedding)
    (h : env.referenceFaceEmbedding = some r) (he : r.embedding = none) :
    processAll env st0 db0 =
      (setError st0 noRefMsg, db0, [setError st0 noRefMsg]) := by
  unfold processAll
  rw [h]
  simp only [he]
  rfl

theorem processAll_badDim (env : RunEnv) (st0 : ProcessingState)
    (db0 : List PhotoMetadata) (r : FaceEmbedding) (ref : List ℚ)
    (h : env.referenceFaceEmbedding = some r) (he : r.embedding = some ref)
    (hd : ref.length ≠ 512) :
    processAll env st0 db0 =
      (setError st0 (staleCalibrationMsg ref.length), db0,
       [setError st0 (staleCalibrationMsg ref.length)]) := by
  unfold processAll
  rw [h]
  simp only [he]
  rw [if_pos hd]

theorem processAll_initFail (env : RunEnv) (st0 : ProcessingState)
    (db0 : List PhotoMetadata) (r : FaceEmbedding) (ref : List ℚ)
    (h : env.referenceFaceEmbedding = some r) (he : r.embedding = some ref)
    (hd : ref.length = 512) (hinit : env.initOk = false) :
    processAll env st0 db0 =
      (setError (setStatus st0 .calibrating) initFailMsg, db0,
       [setStatus st0 .calibrating,
        setError (setStatus st0 .calibrating) initFailMsg]) := by
  unfold processAll
  rw [h]
  simp only [he]
  rw [if_neg (by rw [hd]; exact fun hne => hne rfl)]
  rw [if_pos (by rw [hinit]; exact Bool.false_ne_true)]
  rfl

theorem processAll_empty (env : RunEnv) (st0 : ProcessingState)
    (db0 : List PhotoMetadata) (r : FaceEmbedding) (ref : List ℚ)
    (h : env.referenceFaceEmbedding = some r) (he : r.embedding = some ref)
    (hd : ref.length = 512) (hinit : env.initOk = true)
    (hempty : db0.filter (fun p => ¬ p.processed) = []) :
    processAll env st0 db0 =
      (setStatus (setStatus st0 .calibrating) .complete, db0,
       [setStatus st0 .calibrating,
        setStatus (setStatus st0 .calibrating) .complete]) := by
  unfold processAll
  rw [h]
  simp only [he]
  rw [if_neg (by rw [hd]; exact fun hne => hne rfl)]
  rw [if_neg (by rw [hinit]; exact fun hne => hne rfl)]
  rw [if_pos (by rw [hempty]; rfl)]

/-- Closed form of `processAll` on a run that passes validation and model
initialisation with a nonempty queue of unprocessed photos. -/
theorem processAll_run (env : RunEnv) (st0 : ProcessingState)
    (db0 : List PhotoMetadata) (r : FaceEmbedding) (ref : List ℚ)
    (h : env.referenceFaceEmbedding = some r) (he : r.embedding = some ref)
    (hd : ref.length = 512) (hinit : env.initOk = true)
    (hne : db0.filter (fun p => ¬ p.processed) ≠ []) :
    processAll env st0 db0 =
      ((runLoop ref env.oracle env.cancel (db0.filter (fun p => ¬ p.processed))
          (runStart st0 (db0.filter (fun p => ¬ p.processed)).length) db0).1,
       (runLoop ref env.oracle env.cancel (db0.filter (fun p => ¬ p.processed))
          (runStart st0 (db0.filter (fun p => ¬ p.processed)).length) db0).2.1,
       setStatus st0 .calibrating ::
         setTotalFiles (setStatus st0 .calibrating)
           (db0.filter (fun p => ¬ p.processed)).length ::
         runStart st0 (db0.filter (fun p => ¬ p.processed)).length ::
         (runLoop ref env.oracle env.cancel (db0.filter (fun p => ¬ p.processed))
            (runStart st0 (db0.filter (fun p => ¬ p.processed)).length) db0).2.2) := by
  unfold processAll runStart
  rw [h]
  simp only [he]
  rw [if_neg (by rw [hd]; exact fun hne' => hne' rfl)]
  rw [if_neg (by rw [hinit]; exact fun hne' => hne' rfl)]
  rw [if_neg (fun hlen0 => hne (List.length_eq_zero.mp hlen0))]

end OAT

namespace OAT

/-! ## Claim C4 — best-face selection among multiple embedded faces -/

/-- Claim C4.  For a photo whose oracle call yields two or more faces
carrying embeddings (all admitting the comparison), `processPhoto` writes
`isMatch` and `faceConfidence` from the comparison `r` of the face whose
distance to the reference is minimal — the decomposition `pre ++ r :: post`
of the comparisons in detection order shows `r` weakly below every
comparison (so the minimum is selected regardless of detection order) and
strictly below every earlier one (so on exact ties the first-seen face
wins). -/
theorem c4_best_face_selection (ref : List ℚ)
    (oracle : String → Except String (List FaceDetectionResult))
    (photo : PhotoMetadata) (st : ProcessingState) (dbp : List PhotoMetadata)
    (faces : List FaceDetectionResult) (q : PhotoMetadata)
    (horacle : oracle photo.id = .ok faces)
    (h2 : 2 ≤ (faces.filterMap (fun f => f.embedding)).length)
    (hlen : ∀ e ∈ faces.filterMap (fun f => f.embedding), ref.length ≤ e.length)
    (hq : getRecord dbp photo.id = some q) :
    ∃ r pre post st' snaps dbp',
      processPhoto ref oracle photo st dbp = .ok (st', dbp', snaps) ∧
      (faces.filterMap (fun f => f.embedding)).map (compareFaces ref) =
        pre ++ r :: post ∧
      (∀ c ∈ pre, distOf r < distOf c) ∧
      (∀ c ∈ pre ++ r :: post, distOf r ≤ distOf c) ∧
      getRecord dbp' photo.id =
        some { q with hasFace := true, processed := true,
                      isMatch := r.isMatch, faceConfidence := some r.confidence } := by
  have hne : faces.filterMap (fun f => f.embedding) ≠ [] := by
    intro hnil
    rw [hnil] at h2
    simp at h2
  have hfne : faces ≠ [] := by
    intro hnil
    rw [hnil] at hne
    simp at hne
  obtain ⟨r, pre, post, hbm, hdec, hpre, hall⟩ :=
    bestMatchFold_first_min ref faces hne hlen
  have hupd : photoUpdates ref faces =
      { hasFace := faces.length > 0, processed := true,
        isMatch := some r.isMatch, faceConfidence := some r.confidence } := by
    unfold photoUpdates
    rw [hbm]
  have hlen0 : faces.length > 0 := List.length_pos.mpr hfne
  refine ⟨r, pre, post,
    if photoMatched ref faces then incrementMatched st else st,
    if photoMatched ref faces then [incrementMatched st] else [],
    updatePhoto dbp photo.id (photoUpdates ref faces),
    processPhoto_ok ref oracle photo st dbp faces horacle,
    hdec, hpre, hall, ?_⟩
  rw [getRecord_updatePhoto_self dbp photo.id _ q hq, hupd]
  rw [applyUpdates_full]
  congr 1
  simp [hlen0]

/-- Claim C4, witness: reference `[1]` and two embedded faces `[0]` and
`[1]`; the second face has the strictly smaller distance and is selected. -/
theorem c4_witness :
    ∃ r pre post st' snaps dbp',
      processPhoto [(1 : ℚ)] (fun _ => .ok
          [{ hasFace := true, embedding := some [0] },
           { hasFace := true, embedding := some [1] }])
        { id := "p", filename := "p.jpg", hasFace := false, isMatch := false,
          faceConfidence := none, processed := false }
        initialState
        [{ id := "p", filename := "p.jpg", hasFace := false, isMatch := false,
           faceConfidence := none, processed := false }] = .ok (st', dbp', snaps) ∧
      (([{ hasFace := true, embedding := some [0] },
         { hasFace := true, embedding := some [1] }] :
          List FaceDetectionResult).filterMap (fun f => f.embedding)).map
        (compareFaces [(1 : ℚ)]) = pre ++ r :: post ∧
      (∀ c ∈ pre, distOf r < distOf c) ∧
      (∀ c ∈ pre ++ r :: post, distOf r ≤ distOf c) ∧
      getRecord dbp' "p" =
        some { id := "p", filename := "p.jpg", hasFace := true, isMatch := r.isMatch,
               faceConfidence := some r.confidence, processed := true } :=
  c4_best_face_selection [(1 : ℚ)] _ _ initialState _ _
    { id := "p", filename := "p.jpg", hasFace := false, isMatch := false,
      faceConfidence := none, processed := false }
    rfl (by simp) (by simp) (by simp [getRecord])

/-! ## Claim C10 — faces without embeddings leave match fields untouched -/

/-- Claim C10.  When the oracle returns one or more faces but none carries
an embedding, `processPhoto` writes `hasFace := true` and
`processed := true` to the photo's record, leaves `isMatch` and
`faceConfidence` at their prior values, and does not touch the store (in
particular the matched counter is not incremented). -/
theorem c10_no_embedding_frame (ref : List ℚ)
    (oracle : String → Except String (List FaceDetectionResult))
    (photo : PhotoMetadata) (st : ProcessingState) (dbp : List PhotoMetadata)
    (faces : List FaceDetectionResult) (q : PhotoMetadata)
    (horacle : oracle photo.id = .ok faces)
    (hne : faces ≠ [])
    (hnone : ∀ f ∈ faces, f.embedding = none)
    (hq : getRecord dbp photo.id = some q) :
    ∃ dbp',
      processPhoto ref oracle photo st dbp = .ok (st, dbp', []) ∧
      getRecord dbp' photo.id =
        some { q with hasFace := true, processed := true } := by
  have hbm : bestMatchFold ref faces = none := bestMatchFold_all_none ref faces hnone
  have hmatched : photoMatched ref faces = false := by
    unfold photoMatched
    rw [hbm]
  have hupd : photoUpdates ref faces =
      { hasFace := faces.length > 0, processed := true } := by
    unfold photoUpdates
    rw [hbm]
  have hlen0 : faces.length > 0 := List.length_pos.mpr hne
  refine ⟨updatePhoto dbp photo.id (photoUpdates ref faces), ?_, ?_⟩
  · rw [processPhoto_ok ref oracle photo st dbp faces horacle, hmatched]
    simp
  · rw [getRecord_updatePhoto_self dbp photo.id _ q hq, hupd, applyUpdates_base]
    congr 2
    simp [hlen0]

/-- Claim C10, witness: a single face with no embedding; the record's
`isMatch`/`faceConfidence` keep their prior values (`true`, `some 1`). -/
theorem c10_witness :
    ∃ dbp',
      processPhoto [(1 : ℚ)] (fun _ => .ok [{ hasFace := true }])
        { id := "p", filename := "p.jpg", hasFace := false, isMatch := true,
          faceConfidence := some (some 1), processed := false }
        initialState
        [{ id := "p", filename := "p.jpg", hasFace := false, isMatch := true,
           faceConfidence := some (some 1), processed := false }]
        = .ok (initialState, dbp', []) ∧
      getRecord dbp' "p" =
        some { id := "p", filename := "p.jpg", hasFace := true, isMatch := true,
               faceConfidence := some (some 1), processed := true } :=
  c10_no_embedding_frame [(1 : ℚ)] _ _ initialState _ _
    { id := "p", filename := "p.jpg", hasFace := false, isMatch := true,
      faceConfidence := some (some 1), processed := false }
    rfl (by simp) (by simp) (by simp [getRecord])

/-! ## Claim C6 — fatal validation before any work -/

/-- Claim C6.  If the reference embedding is absent at run start (no stored
reference, or a stored reference record without an embedding vector), or
its length differs from the active recognition model's 512-dimension
output, `processAll` sets status `error` with a non-empty human-readable
message and returns at once: the record store is returned untouched, the
only store mutation is the single `setError`, and the result does not
depend on the oracle or the cancellation flag (so no image is read and no
photo record is touched). -/
theorem c6_fatal_validation (env : RunEnv) (st0 : ProcessingState)
    (db0 : List PhotoMetadata)
    (h : env.referenceFaceEmbedding = none ∨
         (∃ r, env.referenceFaceEmbedding = some r ∧ r.embedding = none) ∨
         (∃ r ref, env.referenceFaceEmbedding = some r ∧ r.embedding = some ref ∧
            ref.length ≠ 512)) :
    ∃ msg, msg ≠ "" ∧
      processAll env st0 db0 = (setError st0 msg, db0, [setError st0 msg]) ∧
      (processAll env st0 db0).1.status = .error ∧
      (processAll env st0 db0).1.errorMsg = some msg ∧
      (∀ oracle' cancel',
        processAll { env with oracle := oracle', cancel := cancel' } st0 db0 =
          processAll env st0 db0) := by
  rcases h with h | ⟨r, h, he⟩ | ⟨r, ref, h, he, hd⟩
  · refine ⟨noRefMsg, by decide, processAll_noRef env st0 db0 h, ?_, ?_, ?_⟩
    · rw [processAll_noRef env st0 db0 h]; rfl
    · rw [processAll_noRef env st0 db0 h]; rfl
    · intro o c
      rw [processAll_noRef { env with oracle := o, cancel := c } st0 db0 h,
        processAll_noRef env st0 db0 h]
  · refine ⟨noRefMsg, by decide, processAll_noEmb env st0 db0 r h he, ?_, ?_, ?_⟩
    · rw [processAll_noEmb env st0 db0 r h he]; rfl
    · rw [processAll_noEmb env st0 db0 r h he]; rfl
    · intro o c
      rw [processAll_noEmb { env with oracle := o, cancel := c } st0 db0 r h he,
        processAll_noEmb env st0 db0 r h he]
  · have hmsg : staleCalibrationMsg ref.length ≠ "" := by
      unfold staleCalibrationMsg
      intro hcon
      have hdata := congrArg String.data hcon
      simp [String.data_append] at hdata
    refine ⟨staleCalibrationMsg ref.length, hmsg,
      processAll_badDim env st0 db0 r ref h he hd, ?_, ?_, ?_⟩
    · rw [processAll_badDim env st0 db0 r ref h he hd]; rfl
    · rw [processAll_badDim env st0 db0 r ref h he hd]; rfl
    · intro o c
      rw [processAll_badDim { env with oracle := o, cancel := c } st0 db0 r ref h he hd,
        processAll_badDim env st0 db0 r ref h he hd]

/-- Claim C6, witness: a run started with no stored reference embedding. -/
theorem c6_witness :
    ∃ msg, msg ≠ "" ∧
      processAll { referenceFaceEmbedding := none, initOk := true,
                   oracle := fun _ => .ok [], cancel := fun _ => false }
        initialState [] =
        (setError initialState msg, [], [setError initialState msg]) ∧
      (processAll { referenceFaceEmbedding := none, initOk := true,
                    oracle := fun _ => .ok [], cancel := fun _ => false }
        initialState []).1.status = .error ∧
      (processAll { referenceFaceEmbedding := none, initOk := true,
                    oracle := fun _ => .ok [], cancel := fun _ => false }
        initialState []).1.errorMsg = some msg ∧
      (∀ oracle' cancel',
        processAll { referenceFaceEmbedding := none, initOk := true,
                     oracle := oracle', cancel := cancel' }
          initialState [] =
        processAll { referenceFaceEmbedding := none, initOk := true,
                     oracle := fun _ => .ok [], cancel := fun _ => false }
          initialState []) :=
  c6_fatal_validation _ initialState [] (Or.inl rfl)

/-! ## Claim C9 — zero-face photos -/

/-- Claim C9.  A candidate photo whose oracle call returns zero faces ends
the run with its record having `hasFace = false`, `processed = true`, and
`isMatch` still at its ingestion-time value `false` (the update on this
path writes only `hasFace` and `processed`); the per-photo step performs no
store mutation at all, so in particular the matched counter is not
incremented. -/
theorem c9_zero_faces (env : RunEnv) (db0 : List PhotoMetadata)
    (r : FaceEmbedding) (ref : List ℚ) (p : PhotoMetadata)
    (h : env.referenceFaceEmbedding = some r) (he : r.embedding = some ref)
    (hd : ref.length = 512) (hinit : env.initOk = true)
    (hcancel : ∀ i, env.cancel i = false)
    (hnd : (db0.map (fun q => q.id)).Nodup)
    (hp : p ∈ db0.filter (fun q => ¬ q.processed))
    (horc : env.oracle p.id = .ok [])
    (hmatch : p.isMatch = false) :
    getRecord (processAll env initialState db0).2.1 p.id =
      some { p with hasFace := false, processed := true } ∧
    ({ p with hasFace := false, processed := true } : PhotoMetadata).isMatch = false ∧
    (∀ st dbp, processPhoto ref env.oracle p st dbp =
      .ok (st, updatePhoto dbp p.id { hasFace := false, processed := true }, [])) := by
  have hne : db0.filter (fun q => ¬ q.processed) ≠ [] := by
    intro hnil
    rw [hnil] at hp
    simp at hp
  have hndp : ((db0.filter (fun q => ¬ q.processed)).map (fun q => q.id)).Nodup :=
    List.Nodup.sublist (List.Sublist.map _ (List.filter_sublist db0)) hnd
  have hself : getRecord db0 p.id = some p :=
    getRecord_self_of_nodup db0 hnd p (List.mem_of_mem_filter hp)
  refine ⟨?_, by rw [hmatch], ?_⟩
  · rw [processAll_run env initialState db0 r ref h he hd hinit hne]
    have hrec := runLoop_record_noCancel ref env.oracle
      (db0.filter (fun q => ¬ q.processed)) env.cancel hcancel
      (runStart initialState (db0.filter (fun q => ¬ q.processed)).length) db0
      hndp p hp p hself
    rw [hrec, horc]
    rfl
  · intro st dbp
    rw [processPhoto_ok ref env.oracle p st dbp [] horc]
    rfl

/-- Claim C9, witness: a one-photo run whose oracle finds no face. -/
theorem c9_witness :
    getRecord (processAll
      { referenceFaceEmbedding := some { embedding := some (List.replicate 512 0),
                                         timestamp := 0 },
        initOk := true, oracle := fun _ => .ok [], cancel := fun _ => false }
      initialState
      [{ id := "a", filename := "a.jpg", hasFace := false, isMatch := false,
         faceConfidence := none, processed := false }]).2.1 "a" =
      some { id := "a", filename := "a.jpg", hasFace := false, isMatch := false,
             faceConfidence := none, processed := true } ∧
    ({ id := "a", filename := "a.jpg", hasFace := false, isMatch := false,
       faceConfidence := none, processed := true } : PhotoMetadata).isMatch = false ∧
    (∀ st dbp, processPhoto (List.replicate 512 0) (fun _ => .ok [])
        { id := "a", filename := "a.jpg", hasFace := false, isMatch := false,
          faceConfidence := none, processed := false } st dbp =
      .ok (st, updatePhoto dbp "a" { hasFace := false, processed := true }, [])) :=
  c9_zero_faces _ _
    { embedding := some (List.replicate 512 0), timestamp := 0 }
    (List.replicate 512 0)
    { id := "a", filename := "a.jpg", hasFace := false, isMatch := false,
      faceConfidence := none, processed := false }
    rfl rfl (by rw [List.length_replicate]) rfl (fun _ => rfl) (by simp) (by simp) rfl rfl

/-! ## Claim C2 — resilience to a throwing candidate -/

set_option maxRecDepth 4000 in
/-- Claim C2, counterexample.  The claim says a photo whose processing
throws still gets its record marked `processed = true`.  In the source the
`catch` block only updates the store (`addFailedFile`, `incrementProcessed`)
— the DB write at the end of `processPhoto` is never reached — so on a
one-photo run whose blob read throws, the run completes with
`processed = 1` and the photo in the failed list, yet the photo's record is
untouched: `processed` is still `false`. -/
theorem c2_counterexample :
    (processAll
      { referenceFaceEmbedding := some { embedding := some (List.replicate 512 0),
                                         timestamp := 0 },
        initOk := true, oracle := fun _ => .error "read failed",
        cancel := fun _ => false }
      initialState
      [{ id := "a", filename := "a.jpg", hasFace := false, isMatch := false,
         faceConfidence := none, processed := false }]).1.status = .complete ∧
    (processAll
      { referenceFaceEmbedding := some { embedding := some (List.replicate 512 0),
                                         timestamp := 0 },
        initOk := true, oracle := fun _ => .error "read failed",
        cancel := fun _ => false }
      initialState
      [{ id := "a", filename := "a.jpg", hasFace := false, isMatch := false,
         faceConfidence := none, processed := false }]).1.processedFiles = 1 ∧
    (processAll
      { referenceFaceEmbedding := some { embedding := some (List.replicate 512 0),
                                         timestamp := 0 },
        initOk := true, oracle := fun _ => .error "read failed",
        cancel := fun _ => false }
      initialState
      [{ id := "a", filename := "a.jpg", hasFace := false, isMatch := false,
         faceConfidence := none, processed := false }]).1.failedFiles = ["a"] ∧
    getRecord (processAll
      { referenceFaceEmbedding := some { embedding := some (List.replicate 512 0),
                                         timestamp := 0 },
        initOk := true, oracle := fun _ => .error "read failed",
        cancel := fun _ => false }
      initialState
      [{ id := "a", filename := "a.jpg", hasFace := false, isMatch := false,
         faceConfidence := none, processed := false }]).2.1 "a" =
      some { id := "a", filename := "a.jpg", hasFace := false, isMatch := false,
             faceConfidence := none, processed := false } := by
  refine ⟨?_, ?_, ?_, ?_⟩ <;> rfl

/-- Claim C2, amended.  On a run over a queue in which candidate `pj`'s
processing throws and every other candidate succeeds, the pipeline records
`pj`'s id in the failed list, increments the store's processed counter for
it (so the run reaches status `complete` with processed count = K), and
continues with the remaining candidates — but `pj`'s photo record is left
completely untouched (in particular its `processed` flag remains `false`),
while every other candidate's record is marked `processed = true`. -/
theorem c2_per_photo_exception (env : RunEnv) (db0 : List PhotoMetadata)
    (r : FaceEmbedding) (ref : List ℚ) (pj : PhotoMetadata)
    (ps1 ps2 : List PhotoMetadata) (e : String)
    (h : env.referenceFaceEmbedding = some r) (he : r.embedding = some ref)
    (hd : ref.length = 512) (hinit : env.initOk = true)
    (hcancel : ∀ i, env.cancel i = false)
    (hnd : (db0.map (fun q => q.id)).Nodup)
    (hsplit : db0.filter (fun q => ¬ q.processed) = ps1 ++ pj :: ps2)
    (hthrow : env.oracle pj.id = .error e)
    (hok : ∀ p, (p ∈ ps1 ∨ p ∈ ps2) → ∃ faces, env.oracle p.id = .ok faces) :
    (processAll env initialState db0).1.status = .complete ∧
    (processAll env initialState db0).1.processedFiles =
      (db0.filter (fun q => ¬ q.processed)).length ∧
    pj.id ∈ (processAll env initialState db0).1.failedFiles ∧
    getRecord (processAll env initialState db0).2.1 pj.id = some pj ∧
    pj.processed = false ∧
    (∀ p, (p ∈ ps1 ∨ p ∈ ps2) →
      ∃ qq, getRecord (processAll env initialState db0).2.1 p.id = some qq ∧
        qq.processed = true) := by
  have hne : db0.filter (fun q => ¬ q.processed) ≠ [] := by
    rw [hsplit]
    simp
  have hndp : ((db0.filter (fun q => ¬ q.processed)).map (fun q => q.id)).Nodup :=
    List.Nodup.sublist (List.Sublist.map _ (List.filter_sublist db0)) hnd
  have hpj : pj ∈ db0.filter (fun q => ¬ q.processed) := by
    rw [hsplit]
    exact List.mem_append_right _ (List.mem_cons_self _ _)
  have hmem : ∀ p, (p ∈ ps1 ∨ p ∈ ps2) → p ∈ db0.filter (fun q => ¬ q.processed) := by
    intro p hp
    rw [hsplit]
    rcases hp with hp | hp
    · exact List.mem_append_left _ hp
    · exact List.mem_append_right _ (List.mem_cons_of_mem _ hp)
  obtain ⟨h1, h2, h3, h4⟩ := runLoop_noCancel ref env.oracle
    (db0.filter (fun q => ¬ q.processed)) env.cancel hcancel
    (runStart initialState (db0.filter (fun q => ¬ q.processed)).length) db0
  rw [processAll_run env initialState db0 r ref h he hd hinit hne]
  refine ⟨h1, ?_, ?_, ?_, ?_, ?_⟩
  · rw [h2]
    simp [runStart, setStatus, setTotalFiles, initialState]
  · rw [h4]
    have hthrows : oracleThrows env.oracle pj = true := by
      unfold oracleThrows
      rw [hthrow]
    refine List.mem_append_right _ (List.mem_map_of_mem _ ?_)
    exact List.mem_filter.mpr ⟨hpj, hthrows⟩
  · have hself : getRecord db0 pj.id = some pj :=
      getRecord_self_of_nodup db0 hnd pj (List.mem_of_mem_filter hpj)
    have hrec := runLoop_record_noCancel ref env.oracle
      (db0.filter (fun q => ¬ q.processed)) env.cancel hcancel
      (runStart initialState (db0.filter (fun q => ¬ q.processed)).length) db0
      hndp pj hpj pj hself
    rw [hrec, hthrow]
  · have := List.mem_filter.mp hpj
    simpa using this.2
  · intro p hp
    obtain ⟨faces, horcp⟩ := hok p hp
    have hself : getRecord db0 p.id = some p :=
      getRecord_self_of_nodup db0 hnd p (List.mem_of_mem_filter (hmem p hp))
    have hrec := runLoop_record_noCancel ref env.oracle
      (db0.filter (fun q => ¬ q.processed)) env.cancel hcancel
      (runStart initialState (db0.filter (fun q => ¬ q.processed)).length) db0
      hndp p (hmem p hp) p hself
    rw [hrec, horcp]
    refine ⟨applyUpdates p (photoUpdates ref faces), rfl, ?_⟩
    rw [applyUpdates_processed, photoUpdates_processed]

/-- Claim C2, witness: the amended theorem applied to a one-photo run
whose blob read throws. -/
theorem c2_witness :
    (processAll
      { referenceFaceEmbedding := some { embedding := some (List.replicate 512 0),
                                         timestamp := 0 },
        initOk := true, oracle := fun _ => .error "boom", cancel := fun _ => false }
      initialState
      [{ id := "b", filename := "b.jpg", hasFace := false, isMatch := false,
         faceConfidence := none, processed := false }]).1.status = .complete ∧
    (processAll
      { referenceFaceEmbedding := some { embedding := some (List.replicate 512 0),
                                         timestamp := 0 },
        initOk := true, oracle := fun _ => .error "boom", cancel := fun _ => false }
      initialState
      [{ id := "b", filename := "b.jpg", hasFace := false, isMatch := false,
         faceConfidence := none, processed := false }]).1.processedFiles =
      (([{ id := "b", filename := "b.jpg", hasFace := false, isMatch := false,
           faceConfidence := none, processed := false }] :
          List PhotoMetadata).filter (fun q => ¬ q.processed)).length ∧
    "b" ∈ (processAll
      { referenceFaceEmbedding := some { embedding := some (List.replicate 512 0),
                                         timestamp := 0 },
        initOk := true, oracle := fun _ => .error "boom", cancel := fun _ => false }
      initialState
      [{ id := "b", filename := "b.jpg", hasFace := false, isMatch := false,
         faceConfidence := none, processed := false }]).1.failedFiles ∧
    getRecord (processAll
      { referenceFaceEmbedding := some { embedding := some (List.replicate 512 0),
                                         timestamp := 0 },
        initOk := true, oracle := fun _ => .error "boom", cancel := fun _ => false }
      initialState
      [{ id := "b", filename := "b.jpg", hasFace := false, isMatch := false,
         faceConfidence := none, processed := false }]).2.1 "b" =
      some { id := "b", filename := "b.jpg", hasFace := false, isMatch := false,
             faceConfidence := none, processed := false } ∧
    ({ id := "b", filename := "b.jpg", hasFace := false, isMatch := false,
       faceConfidence := none, processed := false } : PhotoMetadata).processed = false ∧
    (∀ p, (p ∈ ([] : List PhotoMetadata) ∨ p ∈ ([] : List PhotoMetadata)) →
      ∃ qq, getRecord (processAll
        { referenceFaceEmbedding := some { embedding := some (List.replicate 512 0),
                                           timestamp := 0 },
          initOk := true, oracle := fun _ => .error "boom", cancel := fun _ => false }
        initialState
        [{ id := "b", filename := "b.jpg", hasFace := false, isMatch := false,
           faceConfidence := none, processed := false }]).2.1 p.id = some qq ∧
        qq.processed = true) :=
  c2_per_photo_exception _ _
    { embedding := some (List.replicate 512 0), timestamp := 0 }
    (List.replicate 512 0)
    { id := "b", filename := "b.jpg", hasFace := false, isMatch := false,
      faceConfidence := none, processed := false }
    [] [] "boom"
    rfl rfl (by rw [List.length_replicate]) rfl (fun _ => rfl) (by simp)
    rfl rfl (fun p hp => absurd hp (by simp))

/-! ## Claim C8 — cooperative cancellation -/

/-- The cancellation stream observed by the loop body is the original one
shifted by one boundary. -/
theorem cancelAt_shift (n : ℕ) :
    (fun k => cancelAt (n + 1) (k + 1)) = cancelAt n := by
  funext k
  unfold cancelAt
  rw [decide_eq_decide]
  exact Nat.succ_le_succ_iff

/-- Characterisation of a loop run under a flag first observed set at the
`m`-th boundary: it stops there in status `idle` having counted exactly `m`
photos; the first `m` queued photos carry their committed updates (never
rolled back) and the rest of the queue is untouched. -/
theorem runLoop_cancelAt (ref : List ℚ)
    (oracle : String → Except String (List FaceDetectionResult))
    (ps : List PhotoMetadata) :
    ∀ (m : ℕ), m < ps.length →
    ∀ (st : ProcessingState) (dbp : List PhotoMetadata),
      (ps.map (fun p => p.id)).Nodup →
      (∀ p ∈ ps, ∃ faces, oracle p.id = .ok faces) →
      (runLoop ref oracle (cancelAt m) ps st dbp).1.status = .idle ∧
      (runLoop ref oracle (cancelAt m) ps st dbp).1.processedFiles
        = st.processedFiles + m ∧
      (∀ p ∈ ps.drop m,
        getRecord (runLoop ref oracle (cancelAt m) ps st dbp).2.1 p.id
          = getRecord dbp p.id) ∧
      (∀ p ∈ ps.take m, ∀ q, getRecord dbp p.id = some q →
        ∃ faces, oracle p.id = .ok faces ∧
          getRecord (runLoop ref oracle (cancelAt m) ps st dbp).2.1 p.id =
            some (applyUpdates q (photoUpdates ref faces))) := by
  induction ps with
  | nil => intro m hm; simp at hm
  | cons p ps ih =>
    intro m hm st dbp hnd hok
    rw [List.map_cons, List.nodup_cons] at hnd
    rcases m with _ | n
    · rw [runLoop_cons_cancelled ref oracle (cancelAt 0) p ps st dbp rfl]
      refine ⟨rfl, by simp [setStatus], ?_, ?_⟩
      · intro x _; rfl
      · intro x hx; simp at hx
    · obtain ⟨faces, horc⟩ := hok p (List.mem_cons_self p ps)
      have hcan : cancelAt (n + 1) 0 = false := by simp [cancelAt]
      rw [runLoop_cons_ok ref oracle (cancelAt (n + 1)) p ps st dbp faces hcan horc,
        cancelAt_shift n]
      have hm' : n < ps.length := Nat.lt_of_succ_lt_succ (by simpa using hm)
      obtain ⟨ih1, ih2, ih3, ih4⟩ := ih n hm'
        (incrementProcessed
          (if photoMatched ref faces
           then incrementMatched (setCurrentFile st (some p.id))
           else setCurrentFile st (some p.id)))
        (updatePhoto dbp p.id (photoUpdates ref faces))
        hnd.2 (fun x hx => hok x (List.mem_cons_of_mem _ hx))
      refine ⟨ih1, ?_, ?_, ?_⟩
      · rw [ih2]
        rcases photoMatched ref faces with _ | _ <;>
          simp [incrementProcessed, incrementMatched, setCurrentFile] <;> omega
      · intro x hx
        rw [List.drop_succ_cons] at hx
        have hxps : x ∈ ps := List.mem_of_mem_drop hx
        have hne : p.id ≠ x.id := fun he =>
          hnd.1 (he ▸ List.mem_map_of_mem _ hxps)
        rw [ih3 x hx, getRecord_updatePhoto_ne dbp x.id p.id _ (fun he => hne he.symm)]
      · intro x hx q hq
        rw [List.take_succ_cons] at hx
        rcases List.mem_cons.mp hx with rfl | hx'
        · have hnotin : ∀ y ∈ ps, y.id ≠ x.id := fun y hy he =>
            hnd.1 (he ▸ List.mem_map_of_mem _ hy)
          refine ⟨faces, horc, ?_⟩
          rw [runLoop_frame ref oracle ps _ _ _ x.id hnotin]
          exact getRecord_updatePhoto_self dbp x.id _ q hq
        · have hxps : x ∈ ps := List.mem_of_mem_take hx'
          have hne : p.id ≠ x.id := fun he =>
            hnd.1 (he ▸ List.mem_map_of_mem _ hxps)
          refine ih4 x hx' q ?_
          rw [getRecord_updatePhoto_ne dbp x.id p.id _ (fun he => hne he.symm)]
          exact hq

/-- Claim C8.  If the cancel flag is first observed set at the boundary
after `m` of the K unprocessed candidates have been processed, the run ends
in status `idle` with the processed counter at exactly `m`, the first `m`
candidates' records committed (`processed = true`, never rolled back) and
the remaining K−m records untouched.  (In the model the flag is consulted
only at the per-item boundary — the `cancel` stream is read exactly once
per iteration, before the item starts — mirroring the source's single check
at the top of the loop.) -/
theorem c8_cancellation (env : RunEnv) (db0 : List PhotoMetadata)
    (r : FaceEmbedding) (ref : List ℚ) (m : ℕ)
    (h : env.referenceFaceEmbedding = some r) (he : r.embedding = some ref)
    (hd : ref.length = 512) (hinit : env.initOk = true)
    (hcancel : env.cancel = cancelAt m)
    (hnd : (db0.map (fun q => q.id)).Nodup)
    (hm : m < (db0.filter (fun q => ¬ q.processed)).length)
    (hok : ∀ p ∈ db0.filter (fun q => ¬ q.processed),
      ∃ faces, env.oracle p.id = .ok faces) :
    (processAll env initialState db0).1.status = .idle ∧
    (processAll env initialState db0).1.processedFiles = m ∧
    (∀ p ∈ (db0.filter (fun q => ¬ q.processed)).take m,
      ∃ qq, getRecord (processAll env initialState db0).2.1 p.id = some qq ∧
        qq.processed = true) ∧
    (∀ p ∈ (db0.filter (fun q => ¬ q.processed)).drop m,
      getRecord (processAll env initialState db0).2.1 p.id = some p) := by
  have hne : db0.filter (fun q => ¬ q.processed) ≠ [] := by
    intro hnil
    rw [hnil] at hm
    simp at hm
  have hndp : ((db0.filter (fun q => ¬ q.processed)).map (fun q => q.id)).Nodup :=
    List.Nodup.sublist (List.Sublist.map _ (List.filter_sublist db0)) hnd
  rw [processAll_run env initialState db0 r ref h he hd hinit hne, hcancel]
  obtain ⟨h1, h2, h3, h4⟩ := runLoop_cancelAt ref env.oracle
    (db0.filter (fun q => ¬ q.processed)) m hm
    (runStart initialState (db0.filter (fun q => ¬ q.processed)).length) db0
    hndp hok
  refine ⟨h1, ?_, ?_, ?_⟩
  · rw [h2]
    simp [runStart, setStatus, setTotalFiles, initialState]
  · intro p hp
    have hself : getRecord db0 p.id = some p :=
      getRecord_self_of_nodup db0 hnd p
        (List.mem_of_mem_filter (List.mem_of_mem_take hp))
    obtain ⟨faces, _, hrec⟩ := h4 p hp p hself
    refine ⟨applyUpdates p (photoUpdates ref faces), hrec, ?_⟩
    rw [applyUpdates_processed, photoUpdates_processed]
  · intro p hp
    have hself : getRecord db0 p.id = some p :=
      getRecord_self_of_nodup db0 hnd p
        (List.mem_of_mem_filter (List.mem_of_mem_drop hp))
    rw [h3 p hp, hself]

/-- Claim C8, witness: a two-photo run cancelled after the first item; the
first record is committed, the second untouched. -/
theorem c8_witness :
    (processAll
      { referenceFaceEmbedding := some { embedding := some (List.replicate 512 0),
                                         timestamp := 0 },
        initOk := true, oracle := fun _ => .ok [], cancel := cancelAt 1 }
      initialState
      [{ id := "a", filename := "a.jpg", hasFace := false, isMatch := false,
         faceConfidence := none, processed := false },
       { id := "b", filename := "b.jpg", hasFace := false, isMatch := false,
         faceConfidence := none, processed := false }]).1.status = .idle ∧
    (processAll
      { referenceFaceEmbedding := some { embedding := some (List.replicate 512 0),
                                         timestamp := 0 },
        initOk := true, oracle := fun _ => .ok [], cancel := cancelAt 1 }
      initialState
      [{ id := "a", filename := "a.jpg", hasFace := false, isMatch := false,
         faceConfidence := none, processed := false },
       { id := "b", filename := "b.jpg", hasFace := false, isMatch := false,
         faceConfidence := none, processed := false }]).1.processedFiles = 1 ∧
    (∀ p ∈ (([{ id := "a", filename := "a.jpg", hasFace := false, isMatch := false,
                faceConfidence := none, processed := false },
              { id := "b", filename := "b.jpg", hasFace := false, isMatch := false,
                faceConfidence := none, processed := false }] :
        List PhotoMetadata).filter (fun q => ¬ q.processed)).take 1,
      ∃ qq, getRecord (processAll
        { referenceFaceEmbedding := some { embedding := some (List.replicate 512 0),
                                           timestamp := 0 },
          initOk := true, oracle := fun _ => .ok [], cancel := cancelAt 1 }
        initialState
        [{ id := "a", filename := "a.jpg", hasFace := false, isMatch := false,
           faceConfidence := none, processed := false },
         { id := "b", filename := "b.jpg", hasFace := false, isMatch := false,
           faceConfidence := none, processed := false }]).2.1 p.id = some qq ∧
        qq.processed = true) ∧
    (∀ p ∈ (([{ id := "a", filename := "a.jpg", hasFace := false, isMatch := false,
                faceConfidence := none, processed := false },
              { id := "b", filename := "b.jpg", hasFace := false, isMatch := false,
                faceConfidence := none, processed := false }] :
        List PhotoMetadata).filter (fun q => ¬ q.processed)).drop 1,
      getRecord (processAll
        { referenceFaceEmbedding := some { embedding := some (List.replicate 512 0),
                                           timestamp := 0 },
          initOk := true, oracle := fun _ => .ok [], cancel := cancelAt 1 }
        initialState
        [{ id := "a", filename := "a.jpg", hasFace := false, isMatch := false,
           faceConfidence := none, processed := false },
         { id := "b", filename := "b.jpg", hasFace := false, isMatch := false,
           faceConfidence := none, processed := false }]).2.1 p.id = some p) :=
  c8_cancellation _ _
    { embedding := some (List.replicate 512 0), timestamp := 0 }
    (List.replicate 512 0) 1
    rfl rfl (by rw [List.length_replicate]) rfl rfl (by simp) (by simp)
    (fun p _ => ⟨[], rfl⟩)

/-! ## Claim C3 — counter invariants over observed snapshots -/

/-- Counter invariant over every snapshot the loop emits, starting from a
state where `matched ≤ processed` and `processed + |queue| ≤ total`: every
snapshot satisfies `matched ≤ processed + 1`, `processed ≤ total` and
`matched ≤ total`, and the final state satisfies `matched ≤ processed`. -/
theorem runLoop_inv (ref : List ℚ)
    (oracle : String → Except String (List FaceDetectionResult))
    (ps : List PhotoMetadata) :
    ∀ (cancel : ℕ → Bool) (st : ProcessingState) (dbp : List PhotoMetadata),
      st.matchedFiles ≤ st.processedFiles →
      st.processedFiles + ps.length ≤ st.totalFiles →
      (∀ snap ∈ (runLoop ref oracle cancel ps st dbp).2.2,
        snap.matchedFiles ≤ snap.processedFiles + 1 ∧
        snap.processedFiles ≤ snap.totalFiles ∧
        snap.matchedFiles ≤ snap.totalFiles) ∧
      (runLoop ref oracle cancel ps st dbp).1.matchedFiles ≤
        (runLoop ref oracle cancel ps st dbp).1.processedFiles := by
  induction ps with
  | nil =>
    intro cancel st dbp hm ht
    rw [runLoop_nil]
    refine ⟨?_, hm⟩
    intro snap hsnap
    rw [List.mem_singleton] at hsnap
    subst hsnap
    simp only [setStatus]
    refine ⟨by omega, by omega, by omega⟩
  | cons p ps ih =>
    intro cancel st dbp hm ht
    rw [List.length_cons] at ht
    rcases hcan : cancel 0 with _ | _
    · rcases horc : oracle p.id with e | faces
      · rw [runLoop_cons_error ref oracle cancel p ps st dbp e hcan horc]
        obtain ⟨ihs, ihf⟩ := ih (fun k => cancel (k + 1))
          (incrementProcessed (addFailedFile (setCurrentFile st (some p.id)) p.id)) dbp
          (by simp only [incrementProcessed, addFailedFile, setCurrentFile]; omega)
          (by simp only [incrementProcessed, addFailedFile, setCurrentFile]; omega)
        refine ⟨?_, ihf⟩
        intro snap hsnap
        simp only [List.mem_cons] at hsnap
        rcases hsnap with rfl | rfl | rfl | hsnap
        · simp only [setCurrentFile]
          refine ⟨by omega, by omega, by omega⟩
        · simp only [setCurrentFile, addFailedFile]
          refine ⟨by omega, by omega, by omega⟩
        · simp only [setCurrentFile, addFailedFile, incrementProcessed]
          refine ⟨by omega, by omega, by omega⟩
        · exact ihs snap hsnap
      · rcases hpm : photoMatched ref faces with _ | _
        · rw [runLoop_cons_ok ref oracle cancel p ps st dbp faces hcan horc]
          simp only [hpm, Bool.false_eq_true, if_false, List.nil_append]
          obtain ⟨ihs, ihf⟩ := ih (fun k => cancel (k + 1))
            (incrementProcessed (setCurrentFile st (some p.id)))
            (updatePhoto dbp p.id (photoUpdates ref faces))
            (by simp only [incrementProcessed, setCurrentFile]; omega)
            (by simp only [incrementProcessed, setCurrentFile]; omega)
          refine ⟨?_, ihf⟩
          intro snap hsnap
          simp only [List.singleton_append, List.cons_append, List.nil_append,
            List.mem_cons] at hsnap
          rcases hsnap with rfl | rfl | hsnap
          · simp only [setCurrentFile]
            refine ⟨by omega, by omega, by omega⟩
          · simp only [setCurrentFile, incrementProcessed]
            refine ⟨by omega, by omega, by omega⟩
          · exact ihs snap hsnap
        · rw [runLoop_cons_ok ref oracle cancel p ps st dbp faces hcan horc]
          simp only [hpm, if_true, List.singleton_append]
          obtain ⟨ihs, ihf⟩ := ih (fun k => cancel (k + 1))
            (incrementProcessed (incrementMatched (setCurrentFile st (some p.id))))
            (updatePhoto dbp p.id (photoUpdates ref faces))
            (by simp only [incrementProcessed, incrementMatched, setCurrentFile]; omega)
            (by simp only [incrementProcessed, incrementMatched, setCurrentFile]; omega)
          refine ⟨?_, ihf⟩
          intro snap hsnap
          simp only [List.singleton_append, List.cons_append, List.nil_append,
            List.mem_cons] at hsnap
          rcases hsnap with rfl | rfl | rfl | hsnap
          · simp only [setCurrentFile]
            refine ⟨by omega, by omega, by omega⟩
          · simp only [setCurrentFile, incrementMatched]
            refine ⟨by omega, by omega, by omega⟩
          · simp only [setCurrentFile, incrementMatched, incrementProcessed]
            refine ⟨by omega, by omega, by omega⟩
          · exact ihs snap hsnap
    · rw [runLoop_cons_cancelled ref oracle cancel p ps st dbp hcan]
      refine ⟨?_, hm⟩
      intro snap hsnap
      rw [List.mem_singleton] at hsnap
      subst hsnap
      simp only [setStatus]
      refine ⟨by omega, by omega, by omega⟩

/-- Sum of the all-ones map over `range n`. -/
theorem sum_map_one (n : ℕ) : ((List.range n).map (fun _ => (1 : ℚ))).sum = n := by
  induction n with
  | zero => simp
  | succ k ihk =>
    rw [List.range_succ, List.map_append, List.sum_append]
    simp [ihk]

/-- The dot product of the all-ones vector of length `n` with itself. -/
theorem dotQ_replicate_one (n : ℕ) :
    dotQ (List.replicate n (1 : ℚ)) (List.replicate n 1) = n := by
  unfold dotQ
  rw [List.length_replicate]
  have hmap : (List.range n).map
      (fun i => (List.replicate n (1 : ℚ)).getD i 0 * (List.replicate n 1).getD i 0)
      = (List.range n).map (fun _ => (1 : ℚ)) := by
    apply List.map_congr_left
    intro i hi
    have hlt : i < n := List.mem_range.mp hi
    rw [List.getD_eq_getElem _ _ (by simpa using hlt), List.getElem_replicate]
    norm_num
  rw [hmap, sum_map_one]

/-- The all-ones 512-vector compared against itself is classified a
match. -/
theorem c3_photoMatched_one :
    photoMatched (List.replicate 512 (1 : ℚ))
      [{ hasFace := true, embedding := some (List.replicate 512 1) }] = true := by
  unfold photoMatched
  have hbm : bestMatchFold (List.replicate 512 (1 : ℚ))
      [{ hasFace := true, embedding := some (List.replicate 512 1) }] =
      some (compareFaces (List.replicate 512 1) (List.replicate 512 1)) := rfl
  rw [hbm, compareFaces_eq _ _ (le_refl _)]
  show decide (THRESHOLD < dotQ (List.replicate 512 (1 : ℚ)) (List.replicate 512 1)) = true
  rw [decide_eq_true_eq, dotQ_replicate_one]
  norm_num [THRESHOLD]

/-- The store state observed right after the matched-counter increment on
the counterexample run below. -/
def c3Snapshot : ProcessingState :=
  { status := .processing, totalFiles := 1, processedFiles := 0,
    matchedFiles := 1, currentFileId := some "m", errorMsg := none,
    failedFiles := [] }

/-- Claim C3, counterexample.  The claim asserts `matched ≤ processed` at
*every* observed snapshot, including those emitted between the
matched-counter increment inside per-photo processing and the
processed-counter increment after it.  On a one-photo run whose photo
matches, the snapshot emitted by `incrementMatched` (the fifth store state
of the run) has `matchedFiles = 1 > processedFiles = 0`. -/
theorem c3_counterexample :
    ((processAll
      { referenceFaceEmbedding := some { embedding := some (List.replicate 512 1),
                                         timestamp := 0 },
        initOk := true,
        oracle := fun _ => .ok [{ hasFace := true,
                                  embedding := some (List.replicate 512 1) }],
        cancel := fun _ => false }
      initialState
      [{ id := "m", filename := "m.jpg", hasFace := false, isMatch := false,
         faceConfidence := none, processed := false }]).2.2).get? 4 =
      some c3Snapshot ∧
    c3Snapshot.processedFiles < c3Snapshot.matchedFiles := by
  constructor
  · have hfilter : ([{ id := "m", filename := "m.jpg", hasFace := false,
                       isMatch := false, faceConfidence := none,
                       processed := false }] :
        List PhotoMetadata).filter (fun p => ¬ p.processed) =
        [{ id := "m", filename := "m.jpg", hasFace := false, isMatch := false,
           faceConfidence := none, processed := false }] := rfl
    rw [processAll_run _ initialState _
      { embedding := some (List.replicate 512 1), timestamp := 0 }
      (List.replicate 512 1) rfl rfl (by rw [List.length_replicate]) rfl
      (by rw [hfilter]; simp)]
    rw [hfilter]
    rw [runLoop_cons_ok (List.replicate 512 1) _ _
      { id := "m", filename := "m.jpg", hasFace := false, isMatch := false,
        faceConfidence := none, processed := false } [] _ _
      [{ hasFace := true, embedding := some (List.replicate 512 1) }] rfl rfl]
    rw [c3_photoMatched_one, runLoop_nil]
    rfl
  · norm_num [c3Snapshot]

/-- Claim C3, amended.  For a run started from the freshly-reset store, at
every observed snapshot `0 ≤ matched`, `matched ≤ total` and
`processed ≤ total` hold, and `matched ≤ processed + 1`; `matched` can
exceed `processed` — by exactly one — only at the snapshots between the
matched-counter increment inside per-photo processing and the
processed-counter increment after it, and the final state of the run again
satisfies `matched ≤ processed`. -/
theorem c3_counter_invariants (env : RunEnv) (db0 : List PhotoMetadata) :
    (∀ snap ∈ (processAll env initialState db0).2.2,
      snap.matchedFiles ≤ snap.processedFiles + 1 ∧
      snap.processedFiles ≤ snap.totalFiles ∧
      snap.matchedFiles ≤ snap.totalFiles) ∧
    (processAll env initialState db0).1.matchedFiles ≤
      (processAll env initialState db0).1.processedFiles := by
  rcases h : env.referenceFaceEmbedding with _ | r
  · rw [processAll_noRef env initialState db0 h]
    refine ⟨?_, le_refl _⟩
    intro snap hsnap
    rw [List.mem_singleton] at hsnap
    subst hsnap
    exact ⟨by simp [setError, initialState], by simp [setError, initialState],
      by simp [setError, initialState]⟩
  · rcases he : r.embedding with _ | ref
    · rw [processAll_noEmb env initialState db0 r h he]
      refine ⟨?_, le_refl _⟩
      intro snap hsnap
      rw [List.mem_singleton] at hsnap
      subst hsnap
      exact ⟨by simp [setError, initialState], by simp [setError, initialState],
        by simp [setError, initialState]⟩
    · by_cases hd : ref.length = 512
      · rcases hinit : env.initOk with _ | _
        · rw [processAll_initFail env initialState db0 r ref h he hd hinit]
          refine ⟨?_, le_refl _⟩
          intro snap hsnap
          simp only [List.mem_cons, List.not_mem_nil, or_false] at hsnap
          rcases hsnap with rfl | rfl
          · exact ⟨by simp [setStatus, initialState], by simp [setStatus, initialState],
              by simp [setStatus, initialState]⟩
          · exact ⟨by simp [setError, setStatus, initialState],
              by simp [setError, setStatus, initialState],
              by simp [setError, setStatus, initialState]⟩
        · by_cases hempty : db0.filter (fun p => ¬ p.processed) = []
          · rw [processAll_empty env initialState db0 r ref h he hd hinit hempty]
            refine ⟨?_, le_refl _⟩
            intro snap hsnap
            simp only [List.mem_cons, List.not_mem_nil, or_false] at hsnap
            rcases hsnap with rfl | rfl
            · exact ⟨by simp [setStatus, initialState], by simp [setStatus, initialState],
                by simp [setStatus, initialState]⟩
            · exact ⟨by simp [setStatus, initialState], by simp [setStatus, initialState],
                by simp [setStatus, initialState]⟩
          · rw [processAll_run env initialState db0 r ref h he hd hinit hempty]
            obtain ⟨ihs, ihf⟩ := runLoop_inv ref env.oracle
              (db0.filter (fun p => ¬ p.processed)) env.cancel
              (runStart initialState (db0.filter (fun p => ¬ p.processed)).length) db0
              (by simp [runStart, setStatus, setTotalFiles, initialState])
              (by simp [runStart, setStatus, setTotalFiles, initialState])
            refine ⟨?_, ihf⟩
            intro snap hsnap
            simp only [List.mem_cons] at hsnap
            rcases hsnap with rfl | rfl | rfl | hsnap
            · exact ⟨by simp [setStatus, initialState], by simp [setStatus, initialState],
                by simp [setStatus, initialState]⟩
            · exact ⟨by simp [setTotalFiles, setStatus, initialState],
                by simp [setTotalFiles, setStatus, initialState],
                by simp [setTotalFiles, setStatus, initialState]⟩
            · exact ⟨by simp [runStart, setTotalFiles, setStatus, initialState],
                by simp [runStart, setTotalFiles, setStatus, initialState],
                by simp [runStart, setTotalFiles, setStatus, initialState]⟩
            · exact ihs snap hsnap
      · rw [processAll_badDim env initialState db0 r ref h he hd]
        refine ⟨?_, le_refl _⟩
        intro snap hsnap
        rw [List.mem_singleton] at hsnap
        subst hsnap
        exact ⟨by simp [setError, initialState], by simp [setError, initialState],
          by simp [setError, initialState]⟩

/-- Claim C3, witness: the amended invariant evaluated on a concrete run
(the no-reference error run) at its single observed snapshot, together with
the final-state inequality. -/
theorem c3_witness :
    ((setError initialState noRefMsg).matchedFiles ≤
        (setError initialState noRefMsg).processedFiles + 1 ∧
      (setError initialState noRefMsg).processedFiles ≤
        (setError initialState noRefMsg).totalFiles ∧
      (setError initialState noRefMsg).matchedFiles ≤
        (setError initialState noRefMsg).totalFiles) ∧
    (processAll { referenceFaceEmbedding := none, initOk := true,
                  oracle := fun _ => .ok [], cancel := fun _ => false }
      initialState []).1.matchedFiles ≤
    (processAll { referenceFaceEmbedding := none, initOk := true,
                  oracle := fun _ => .ok [], cancel := fun _ => false }
      initialState []).1.processedFiles :=
  ⟨(c3_counter_invariants
      { referenceFaceEmbedding := none, initOk := true,
        oracle := fun _ => .ok [], cancel := fun _ => false } []).1
      (setError initialState noRefMsg)
      (by rw [processAll_noRef _ initialState [] rfl]; exact List.mem_singleton.mpr rfl),
   (c3_counter_invariants
      { referenceFaceEmbedding := none, initOk := true,
        oracle := fun _ => .ok [], cancel := fun _ => false } []).2⟩

/-! ## Claim C1 — dimension contract of `compareFaces` -/

/-- Claim C1, counterexample.  The claim says that for embeddings of
unequal lengths `compareFaces` fails with a dimension-mismatch error and
produces no `ComparisonResult`.  The source has no dimension check at all:
on the unequal-length pair `[1]` (length 1) and `[1, 0]` (length 2) it
returns a fully formed `FaceComparisonResult` — indeed a *match* — and no
error (its type has no error outcome; the function body cannot throw). -/
theorem c1_counterexample :
    ([(1 : ℚ)] : List ℚ).length ≠ ([(1 : ℚ), 0] : List ℚ).length ∧
    compareFaces [(1 : ℚ)] [(1 : ℚ), 0] =
      { isMatch := true, distanceSq := some 0, similarity := some 1,
        confidence := some 1 } := by
  constructor
  · simp
  · simp [compareFaces, dotLoop, sumSqLoop, jsGet, jsMul, jsAdd, jsSub, jsLt,
      jsMin, jsMax, THRESHOLD, List.range_succ]
    norm_num

/-- Claim C1, amended.  `compareFaces` performs no dimension check and
always returns a `FaceComparisonResult`, computed by iterating over the
first embedding's indices: when the second embedding is at least as long,
the result depends only on its first `|embedding1|` entries; when it is
strictly shorter, the out-of-range reads make `similarity` and
`confidence` `NaN` and `isMatch` false. -/
theorem c1_no_dimension_check (e1 e2 : List ℚ) :
    (e1.length ≤ e2.length →
      compareFaces e1 e2 = compareFaces e1 (e2.take e1.length)) ∧
    (e2.length < e1.length →
      (compareFaces e1 e2).similarity = none ∧
      (compareFaces e1 e2).isMatch = false ∧
      (compareFaces e1 e2).confidence = none) := by
  constructor
  · intro _
    unfold compareFaces
    rw [dotLoop_take, sumSqLoop_take]
  · intro h
    unfold compareFaces
    rw [dotLoop_eq_none _ _ h]
    exact ⟨rfl, rfl, rfl⟩

/-- Claim C1, witness: the amended theorem applied at concrete inputs of
unequal lengths, in both directions. -/
theorem c1_witness :
    compareFaces [(1 : ℚ)] [(1 : ℚ), 0] =
      compareFaces [(1 : ℚ)] (([(1 : ℚ), 0] : List ℚ).take 1) ∧
    (compareFaces [(1 : ℚ), 0] [(1 : ℚ)]).similarity = none := by
  constructor
  · exact (c1_no_dimension_check [(1 : ℚ)] [(1 : ℚ), 0]).1 (by simp)
  · exact ((c1_no_dimension_check [(1 : ℚ), 0] [(1 : ℚ)]).2 (by simp)).1

/-! ## Claim C7 — cosine threshold policy and confidence clamp -/

/-- Claim C7.  For the cosine metric, on equal-length pre-normalised
embeddings (unit squared L2 norm), `compareFaces` classifies the pair as a
match exactly when the cosine similarity (the dot product `dotQ`, for unit
vectors) strictly exceeds the configured threshold `0.28`, and returns
`confidence = clamp(similarity, 0, 1)`, which always lies in `[0, 1]`. -/
theorem c7_cosine_threshold_clamp (e1 e2 : List ℚ)
    (hlen : e1.length = e2.length)
    (_hn1 : normSqQ e1 = 1) (_hn2 : normSqQ e2 = 1) :
    ((compareFaces e1 e2).isMatch = true ↔ THRESHOLD < dotQ e1 e2) ∧
    (compareFaces e1 e2).confidence = some (max 0 (min 1 (dotQ e1 e2))) ∧
    (∀ q, (compareFaces e1 e2).confidence = some q → 0 ≤ q ∧ q ≤ 1) := by
  rw [compareFaces_eq e1 e2 (le_of_eq hlen)]
  refine ⟨by simp, rfl, ?_⟩
  intro q hq
  have hq' : max 0 (min 1 (dotQ e1 e2)) = q := by
    simpa using hq
  subst hq'
  exact ⟨le_max_left _ _, max_le (by norm_num) (min_le_left _ _)⟩

/-- Claim C7, witness: the theorem applied to the unit vector `[3/5, 4/5]`
compared with itself. -/
theorem c7_witness :
    ((compareFaces [(3 : ℚ)/5, 4/5] [(3 : ℚ)/5, 4/5]).isMatch = true ↔
      THRESHOLD < dotQ [(3 : ℚ)/5, 4/5] [(3 : ℚ)/5, 4/5]) ∧
    (compareFaces [(3 : ℚ)/5, 4/5] [(3 : ℚ)/5, 4/5]).confidence =
      some (max 0 (min 1 (dotQ [(3 : ℚ)/5, 4/5] [(3 : ℚ)/5, 4/5]))) ∧
    (∀ q, (compareFaces [(3 : ℚ)/5, 4/5] [(3 : ℚ)/5, 4/5]).confidence = some q →
      0 ≤ q ∧ q ≤ 1) :=
  c7_cosine_threshold_clamp _ _ (by simp)
    (by simp [normSqQ]; norm_num) (by simp [normSqQ]; norm_num)

/-! ## Claim C5 — `detectAllFaces` failure semantics -/

/-- Claim C5, counterexample.  The claim says `detectAllFaces` errors on
image-decode failure (and on oracle-level failure).  In the source the
outer `try/catch` swallows both and returns `[]`: with models loaded and a
decode failure (`blobToImage` rejecting), the call returns `.ok []`, not an
error. -/
theorem c5_counterexample :
    detectAllFaces
      { modelsLoaded := true,
        decode := .error "Failed to load image from blob",
        detect := .ok [],
        recognize := fun _ _ => .ok [] } = .ok [] := rfl

/-- Claim C5, amended.  With models loaded, `detectAllFaces` never errors:
it returns an empty sequence when no face is found, returns an empty
sequence (rather than an error) on image-decode failure and on
detector-level failure, and when decode and detection succeed it returns
exactly the faces whose per-face recognition step succeeded, in detection
order, dropping each failing face; it errors only when the models are not
loaded. -/
theorem c5_detectAllFaces_failure_semantics (env : DetectEnv) :
    (env.modelsLoaded = false →
      detectAllFaces env = .error "Models not loaded. Call initialize() first.") ∧
    (env.modelsLoaded = true →
      (∀ u, env.decode = .ok u → env.detect = .ok [] → detectAllFaces env = .ok []) ∧
      (∀ e, env.decode = .error e → detectAllFaces env = .ok []) ∧
      (∀ u e, env.decode = .ok u → env.detect = .error e → detectAllFaces env = .ok []) ∧
      (∀ u dets, env.decode = .ok u → env.detect = .ok dets →
        detectAllFaces env = .ok (dets.enum.filterMap (fun d =>
          match env.recognize d.1 d.2 with
          | .error _ => none
          | .ok embedding =>
            some { hasFace := true,
                   embedding := some embedding,
                   confidence := some d.2.score,
                   boundingBox := some d.2.box })))) := by
  constructor
  · intro h
    simp [detectAllFaces, h]
  · intro h
    refine ⟨?_, ?_, ?_, ?_⟩
    · intro u hdec hdet
      simp [detectAllFaces, h, hdec, hdet]
    · intro e hdec
      simp [detectAllFaces, h, hdec]
    · intro u e hdec hdet
      simp [detectAllFaces, h, hdec, hdet]
    · intro u dets hdec hdet
      rcases hd : dets with _ | ⟨d, rest⟩
      · subst hd
        simp [detectAllFaces, h, hdec, hdet]
      · subst hd
        simp [detectAllFaces, h, hdec, hdet]

/-- Claim C5, witness: the amended theorem at a concrete environment with
two detections of which the second fails recognition — the call returns
only the first face. -/
theorem c5_witness :
    detectAllFaces
      { modelsLoaded := true,
        decode := .ok (),
        detect := .ok [{ score := 1, box := ⟨0, 0, 1, 1⟩ },
                       { score := 1, box := ⟨2, 2, 1, 1⟩ }],
        recognize := fun i _ => if i = 0 then .ok [1] else .error "inference failed" }
      = .ok [{ hasFace := true, embedding := some [1], confidence := some 1,
               boundingBox := some ⟨0, 0, 1, 1⟩ }] := by
  have h := ((c5_detectAllFaces_failure_semantics
    { modelsLoaded := true,
      decode := .ok (),
      detect := .ok [{ score := 1, box := ⟨0, 0, 1, 1⟩ },
                     { score := 1, box := ⟨2, 2, 1, 1⟩ }],
      recognize := fun i _ => if i = 0 then .ok [1] else .error "inference failed" }).2
    rfl).2.2.2 () _ rfl rfl
  rw [h]
  rfl

end OAT
